import Mathlib

/-!
# Verification of the stippler superpixel engine

A shallow embedding of the core of the `stippler` repository:
the pixel-buffer indexing helpers (`imagedata.cpp`), the superpixel
data model (`superpixellation.cpp`), the SLIC finalization pipeline
(counting sort and superpixel construction, `slic.cpp`), the local-data
filter (Otsu thresholding and superpixel classification,
`localdatafilter.cpp`), and the incremental-algorithm state machine
(`algorithm.cpp` / `slic.cpp`).

`qreal` values are modelled as `ℚ` where the source only adds, multiplies,
divides and compares them, and as `ℝ` where square roots occur.
Heap-allocated arrays are modelled as total functions from indices, with
allocation producing default-valued functions; raw pointers that can be
null are modelled with `Option` where nullness steers control flow.
-/

namespace Stippler

section Defs

open scoped Classical

/-! ## Image model (`imagedata.cpp`)

The pixel buffer: dimensions, per-pixel RGB and CIE L*a*b* channel data
(the colour-space conversion itself is external to the core and the
channel contents are therefore arbitrary data here), and the indexing
and neighbour-enumeration helpers translated from `imagedata.cpp`. -/

structure ImageData where
  w : ℕ
  h : ℕ
  red : ℕ → ℕ
  green : ℕ → ℕ
  blue : ℕ → ℕ
  lStar : ℕ → ℝ
  aStar : ℕ → ℝ
  bStar : ℕ → ℝ

/-- `ImageData::pixelCount` -/
def ImageData.pixelCount (img : ImageData) : ℕ := img.w * img.h

/-- `ImageData::xyToK`: `w * y + x` -/
def ImageData.xyToK (img : ImageData) (x y : ℕ) : ℕ := img.w * y + x

/-- `ImageData::kToXY`, x component: `k % w` -/
def ImageData.kToX (img : ImageData) (k : ℕ) : ℕ := k % img.w

/-- `ImageData::kToXY`, y component: `k / w` -/
def ImageData.kToY (img : ImageData) (k : ℕ) : ℕ := k / img.w

/-- `ImageData::fourNeighbours`: the in-bounds 4-neighbours of pixel `k`,
in the source's order (right, up, left, bottom). -/
def ImageData.fourNeighbours (img : ImageData) (k : ℕ) : List ℕ :=
  let x := img.kToX k
  let y := img.kToY k
  (if x + 1 < img.w then [img.xyToK (x + 1) y] else []) ++
  (if 1 ≤ y then [img.xyToK x (y - 1)] else []) ++
  (if 1 ≤ x then [img.xyToK (x - 1) y] else []) ++
  (if y + 1 < img.h then [img.xyToK x (y + 1)] else [])

/-- `ImageData::eightNeighbours`: the in-bounds 8-neighbours of pixel `k`,
in the source's order (R, UR, U, UL, L, BL, B, BR). -/
def ImageData.eightNeighbours (img : ImageData) (k : ℕ) : List ℕ :=
  let x := img.kToX k
  let y := img.kToY k
  (if x + 1 < img.w then [img.xyToK (x + 1) y] else []) ++
  (if 1 ≤ y ∧ x + 1 < img.w then [img.xyToK (x + 1) (y - 1)] else []) ++
  (if 1 ≤ y then [img.xyToK x (y - 1)] else []) ++
  (if 1 ≤ x ∧ 1 ≤ y then [img.xyToK (x - 1) (y - 1)] else []) ++
  (if 1 ≤ x then [img.xyToK (x - 1) y] else []) ++
  (if 1 ≤ x ∧ y + 1 < img.h then [img.xyToK (x - 1) (y + 1)] else []) ++
  (if y + 1 < img.h then [img.xyToK x (y + 1)] else []) ++
  (if x + 1 < img.w ∧ y + 1 < img.h then [img.xyToK (x + 1) (y + 1)] else [])

/-- `ImageData::eightNeighboursReplicate`: the 8 neighbours of pixel `k`
with out-of-bounds coordinates replicated (clamped) onto the pixel
itself, as a function from the source's fixed slot numbering 0..7. -/
def ImageData.eightNeighboursReplicate (img : ImageData) (k : ℕ) : ℕ → ℕ :=
  let x := img.kToX k
  let y := img.kToY k
  let xR := if x + 1 < img.w then x + 1 else x
  let yU := if 1 ≤ y then y - 1 else y
  let xL := if 1 ≤ x then x - 1 else x
  let yB := if y + 1 < img.h then y + 1 else y
  fun i =>
    if i = 0 then img.xyToK xR y
    else if i = 1 then img.xyToK xR yU
    else if i = 2 then img.xyToK x yU
    else if i = 3 then img.xyToK xL yU
    else if i = 4 then img.xyToK xL y
    else if i = 5 then img.xyToK xL yB
    else if i = 6 then img.xyToK x yB
    else img.xyToK xR yB

/-- `ImageData::neighbours`: all pixels in the window of half-width `dx`
and half-height `dy` around `(centerX, centerY)`, clamped to the image,
column-major as in the source (outer loop over x, inner loop over y).
The centre coordinates may lie outside the image (signed in the source),
in which case clamping can give an empty window. -/
def ImageData.neighboursWindow (img : ImageData) (centerX centerY dx dy : ℤ) : List ℕ :=
  let startX : ℤ := if centerX - dx < 0 then 0 else centerX - dx
  let startY : ℤ := if centerY - dy < 0 then 0 else centerY - dy
  let endX : ℤ := if centerX + dx ≥ img.w then (img.w : ℤ) - 1 else centerX + dx
  let endY : ℤ := if centerY + dy ≥ img.h then (img.h : ℤ) - 1 else centerY + dy
  (List.range' startX.toNat (endX + 1 - startX).toNat).flatMap fun xi =>
    (List.range' startY.toNat (endY + 1 - startY).toNat).map fun yi =>
      img.xyToK xi yi

/-- `ImageData::sobelLabAt(k, g)`: combined Sobel gradient vector at `k`,
summing the per-channel gradients computed over the replicated
8-neighbourhood (`imagedata.cpp`). -/
noncomputable def ImageData.sobelLabAt (img : ImageData) (k : ℕ) : ℝ × ℝ :=
  let nb := img.eightNeighboursReplicate k
  let gx : (ℕ → ℝ) → ℝ := fun c =>
    c (nb 0) * (-2) + c (nb 1) * (-1) + c (nb 3) * 1 +
    c (nb 4) * 2 + c (nb 5) * 1 + c (nb 7) * (-1)
  let gy : (ℕ → ℝ) → ℝ := fun c =>
    c (nb 1) * 1 + c (nb 2) * 2 + c (nb 3) * 1 +
    c (nb 5) * (-1) + c (nb 6) * (-2) + c (nb 7) * (-1)
  (gx img.lStar + gx img.aStar + gx img.bStar,
   gy img.lStar + gy img.aStar + gy img.bStar)

/-- A concrete 2×2 image with constant channels, used to instantiate
hypotheses of the general theorems on a small example. -/
def testImage2x2 : ImageData :=
  ImageData.mk 2 2 (fun _ => 0) (fun _ => 0) (fun _ => 0)
    (fun _ => 0) (fun _ => 0) (fun _ => 0)

/-- `QVector2D::lengthSquared` for a modelled 2-vector. -/
def lengthSq2 (v : ℝ × ℝ) : ℝ := v.1 * v.1 + v.2 * v.2

/-- `QVector3D`-style squared length for a modelled 3-vector. -/
def lengthSq3 (v : ℝ × ℝ × ℝ) : ℝ := v.1 * v.1 + v.2.1 * v.2.1 + v.2.2 * v.2.2

/-! ## Superpixel construction (`superpixellation.cpp`, lines 19–211)

`Superpixellation::Superpixel::Superpixel` classifies the pixels of one
superpixel into boundary and interior pixels, reorders its pixel array
so boundary pixels come first, and computes colour statistics. -/

/-- The boundary test of the `Superpixel` constructor: a pixel is a
boundary pixel when it has fewer than four in-bounds 4-neighbours, or
when some 4-neighbour carries a different label (`superpixellation.cpp`
lines 65–78). -/
def isBoundaryPixel (img : ImageData) (labels : ℕ → ℕ) (p : ℕ) : Bool :=
  decide ((img.fourNeighbours p).length < 4) ||
    (img.fourNeighbours p).any fun q => labels q ≠ labels p

/-- The fields of `Superpixellation::Superpixel` used by the properties
under verification.  `allPx` is the reordered pixel array (boundary
pixels first, then interior pixels). -/
structure Superpixel where
  id : ℕ
  allPx : List ℕ
  nBoundaryPixels : ℕ
  nPixels : ℕ
  centerRGB : ℕ × ℕ × ℕ
  stdDevColor : ℝ
  stdDevColorChannels : ℝ × ℝ × ℝ

/-- The clamped floor used for the mean RGB components
(`superpixellation.cpp` lines 95–113): values above `IMAGEDATA_MAX_RGB`
are clamped to 255, others floored. -/
noncomputable def rgbClampFloor (x : ℝ) : ℕ :=
  if 255 < x then 255 else (⌊x⌋).toNat

/-- `Superpixellation::Superpixel::Superpixel`: reorders the incoming
pixel list so boundary pixels precede interior pixels (lines 115–133)
and computes the colour standard deviations, which divide by
`nPixels - 1` only under the guard `nPixels > 1` and otherwise keep
their default-initialized value of zero (lines 135–156). -/
noncomputable def mkSuperpixel (l : ℕ) (allPixels : List ℕ) (labels : ℕ → ℕ)
    (img : ImageData) : Superpixel :=
  let bnd := isBoundaryPixel img labels
  let n := allPixels.length
  let lc : ℝ := (allPixels.map img.lStar).sum / n
  let ac : ℝ := (allPixels.map img.aStar).sum / n
  let bc : ℝ := (allPixels.map img.bStar).sum / n
  let dlSum : ℝ := (allPixels.map fun p => (lc - img.lStar p) * (lc - img.lStar p)).sum
  let daSum : ℝ := (allPixels.map fun p => (ac - img.aStar p) * (ac - img.aStar p)).sum
  let dbSum : ℝ := (allPixels.map fun p => (bc - img.bStar p) * (bc - img.bStar p)).sum
  { id := l
    allPx := allPixels.filter (fun p => bnd p) ++ allPixels.filter (fun p => !bnd p)
    nBoundaryPixels := (allPixels.filter (fun p => bnd p)).length
    nPixels := n
    centerRGB :=
      (rgbClampFloor ((allPixels.map fun p => (img.red p : ℝ)).sum / n),
       rgbClampFloor ((allPixels.map fun p => (img.green p : ℝ)).sum / n),
       rgbClampFloor ((allPixels.map fun p => (img.blue p : ℝ)).sum / n))
    stdDevColor :=
      if 1 < n then Real.sqrt ((dlSum + daSum + dbSum) / (n - 1)) else 0
    stdDevColorChannels :=
      if 1 < n then
        (Real.sqrt (dlSum / (n - 1)), Real.sqrt (daSum / (n - 1)),
         Real.sqrt (dbSum / (n - 1)))
      else (0, 0, 0) }

/-- `Superpixellation::Superpixel::boundaryPixels`: the first
`nBoundaryPixels` entries of the pixel array. -/
def Superpixel.boundaryPixels (sp : Superpixel) : List ℕ :=
  sp.allPx.take sp.nBoundaryPixels

/-- `Superpixellation::Superpixel::interiorPixels`: the entries of the
pixel array after the boundary pixels. -/
def Superpixel.interiorPixels (sp : Superpixel) : List ℕ :=
  sp.allPx.drop sp.nBoundaryPixels

/-! ## Counting sort of pixels into superpixels (`slic.cpp`)

`SLIC::increment`, case `SORT_PIXELS_AS_SUPERPIXELS` (lines 311–323),
first builds the inclusive prefix-sum offset table
(`pixelSortingOffsets[0] = nPixelsPerCluster[0]`,
`pixelSortingOffsets[i] = nPixelsPerCluster[i] + pixelSortingOffsets[i-1]`),
then `SLIC::sortPixelsIntoSuperpixels` (lines 916–924) walks the pixels
from `pixelCount - 1` down to `0`, decrementing the offset of the
pixel's cluster and writing the pixel there.
`SLIC::createSuperpixels` (lines 926–939) then reads each cluster's
bucket as the slice of `sortedPixels` starting at the final offset. -/

/-- The offset-table initialization of `slic.cpp` lines 312–317:
`bucketEndsAux nPer i` is the value stored in `pixelSortingOffsets[i]`
before the sort, the inclusive prefix sum of the cluster sizes. -/
def bucketEndsAux (nPer : ℕ → ℕ) : ℕ → ℕ
  | 0 => nPer 0
  | i + 1 => nPer (i + 1) + bucketEndsAux nPer i

/-- The loop of `SLIC::sortPixelsIntoSuperpixels`: processes pixels
`m - 1, m - 2, …, 0` (the source iterates `k` downward), decrementing
`pixelSortingOffsets[label]` and storing the pixel at the decremented
offset in `sortedPixels`. -/
def countingSortAux (labels : ℕ → ℕ) : ℕ → ((ℕ → ℕ) × (ℕ → ℕ)) → ((ℕ → ℕ) × (ℕ → ℕ))
  | 0, st => st
  | m + 1, (off, sorted) =>
      countingSortAux labels m
        (Function.update off (labels m) (off (labels m) - 1),
         Function.update sorted (off (labels m) - 1) m)

/-- The complete pixel sort: offset-table initialization followed by the
full downward scan over all `nPx` pixels.  Returns the final offset
table and the `sortedPixels` array. -/
def slicSort (labels nPer : ℕ → ℕ) (nPx : ℕ) : (ℕ → ℕ) × (ℕ → ℕ) :=
  countingSortAux labels nPx (fun i => bucketEndsAux nPer i, fun _ => 0)

/-- The pixel bucket of cluster `j` as read by `SLIC::createSuperpixels`:
`nPixelsPerCluster[j]` entries of `sortedPixels` starting at the final
`pixelSortingOffsets[j]`. -/
def clusterSlice (labels nPer : ℕ → ℕ) (nPx j : ℕ) : List ℕ :=
  (List.range' ((slicSort labels nPer nPx).1 j) (nPer j)).map (slicSort labels nPer nPx).2

/-- `SLIC::createSuperpixels`: builds the `Superpixel` object of each
cluster from its bucket of the sorted pixel array. -/
noncomputable def createSuperpixelObjects (img : ImageData) (labels nPer : ℕ → ℕ) :
    ℕ → Superpixel :=
  fun j => mkSuperpixel j (clusterSlice labels nPer img.pixelCount j) labels img

/-! ### Proof infrastructure for the counting sort -/

/-- Number of pixels below `m` carrying label `j` (the reference,
"naive pixel-by-pixel scan" count). -/
def labelCount (labels : ℕ → ℕ) (j m : ℕ) : ℕ :=
  ((List.range m).filter fun p => labels p = j).length

/-- Exclusive prefix sum of cluster sizes: where cluster `j`'s bucket
begins. -/
def bucketStart (nPer : ℕ → ℕ) (j : ℕ) : ℕ := ∑ i ∈ Finset.range j, nPer i

/-- The pixels with label `j` in a list, in order. -/
def filterLab (labels : ℕ → ℕ) (j : ℕ) (L : List ℕ) : List ℕ :=
  L.filter fun p => labels p = j

/-- The contents of array `f` on positions `[a, a + len)`. -/
def segMap (f : ℕ → ℕ) (a len : ℕ) : List ℕ := (List.range' a len).map f

/-! ## Otsu thresholding (`localdatafilter.cpp`, lines 515–561)

`LocalDataFilter::chooseOtsuThreshold` first sums `bin * histogram[bin]`
over all bins, then scans every split point `bin = 1 … nbins - 1`,
maintaining the dark-class weight and sum; split points with an empty
dark class are skipped (`continue`), the scan stops once the light class
is empty (`break`), and otherwise the between-class variance
`weightDark * weightLight * (meanLight - meanDark)²` is compared against
the running maximum. -/

/-- The mutable locals of the `chooseOtsuThreshold` scan.  `safe` is a
ghost flag recording that every division performed so far had a nonzero
denominator. -/
structure OtsuState where
  sumDark : ℕ
  weightDark : ℕ
  maxBCV : ℚ
  threshold : ℕ
  safe : Bool

/-- The scan loop of `chooseOtsuThreshold` (lines 532–559): `fuel` many
iterations starting at split point `bin`. -/
def otsuLoop (hist : ℕ → ℕ) (n sumAll : ℕ) : ℕ → ℕ → OtsuState → OtsuState
  | 0, _, st => st
  | fuel + 1, bin, st =>
      let wD := st.weightDark + hist (bin - 1)
      if wD = 0 then
        otsuLoop hist n sumAll fuel (bin + 1) { st with weightDark := wD }
      else
        let wL : ℤ := (n : ℤ) - (wD : ℤ)
        if wL = 0 then { st with weightDark := wD }
        else
          let sD := st.sumDark + (bin - 1) * hist (bin - 1)
          let meanDark : ℚ := (sD : ℚ) / (wD : ℚ)
          let meanLight : ℚ := ((sumAll : ℚ) - (sD : ℚ)) / (wL : ℚ)
          let diffMean : ℚ := meanLight - meanDark
          let bcv : ℚ := ((wD : ℚ) * (wL : ℚ)) * (diffMean * diffMean)
          let safeNext := st.safe && decide ((wD : ℚ) ≠ 0) && decide ((wL : ℚ) ≠ 0)
          if st.maxBCV < bcv then
            otsuLoop hist n sumAll fuel (bin + 1)
              { sumDark := sD, weightDark := wD, maxBCV := bcv,
                threshold := bin, safe := safeNext }
          else
            otsuLoop hist n sumAll fuel (bin + 1)
              { st with sumDark := sD, weightDark := wD, safe := safeNext }

/-- Dark-class weight of split point `t`: total histogram mass of the
bins strictly below `t`. -/
def prefixWeight (hist : ℕ → ℕ) (t : ℕ) : ℕ := ((List.range t).map hist).sum

/-- Dark-class weighted sum of split point `t`. -/
def prefixBinSum (hist : ℕ → ℕ) (t : ℕ) : ℕ :=
  ((List.range t).map fun b => b * hist b).sum

/-- `LocalDataFilter::chooseOtsuThreshold`: the full computation — the
`sumAll` loop (lines 516–519) followed by the split-point scan — given
the histogram, the number of bins, and `nSuperpixels`. -/
def chooseOtsuThreshold (hist : ℕ → ℕ) (nbins n : ℕ) : OtsuState :=
  otsuLoop hist n (prefixBinSum hist nbins) (nbins - 1) 1
    { sumDark := 0, weightDark := 0, maxBCV := 0, threshold := 0, safe := true }

/-- The between-class variance of split point `t`, written from the
spec's description: the product of the class weights times the squared
difference of the class means (the source's quantity, which omits the
normalization by the squared total count). -/
def betweenClassVariance (hist : ℕ → ℕ) (nbins n t : ℕ) : ℚ :=
  let wD : ℚ := prefixWeight hist t
  let wL : ℚ := (n : ℚ) - wD
  let meanD : ℚ := (prefixBinSum hist t : ℚ) / wD
  let meanL : ℚ := ((prefixBinSum hist nbins : ℚ) - (prefixBinSum hist t : ℚ)) / wL
  (wD * wL) * ((meanL - meanD) * (meanL - meanD))

/-! ## Local-Data Filter classification (`localdatafilter.cpp`)

The scoring basis determines the comparison direction
(`LocalDataFilter::LocalDataFilter`, lines 112–131), and
`LocalDataFilter::filterSuperpixels` (lines 563–577) classifies each
superpixel against the Otsu threshold and writes the decision into both
the per-superpixel and the per-pixel selection arrays (which
`SuperpixelFilter::increment` allocated filled with `false`). -/

/-- `LocalDataFilter::ScoreBasis` -/
inductive ScoreBasis where
  | SIZE : ScoreBasis
  | STDDEV_LSTAR : ScoreBasis
  | EXTERNAL : ScoreBasis
deriving DecidableEq

/-- The `selectBelowThreshold` flag chosen by the `LocalDataFilter`
constructor for each scoring basis. -/
def selectBelowThresholdFor : ScoreBasis → Bool
  | ScoreBasis.SIZE => false
  | ScoreBasis.STDDEV_LSTAR => true
  | ScoreBasis.EXTERNAL => true

/-- One superpixel's decision (`localdatafilter.cpp` lines 569–570):
score strictly below the threshold when `selectBelowThreshold`,
otherwise score at or above the threshold. -/
def filterChoice (scores : ℕ → ℚ) (thr : ℚ) (selectBelow : Bool) (k : ℕ) : Bool :=
  if selectBelow then decide (scores k < thr) else decide (thr ≤ scores k)

/-- The inner pixel loop of `filterSuperpixels` (lines 573–575): write the
superpixel's decision into the per-pixel selection array at every pixel
of the superpixel. -/
def setChoice (c : Bool) : List ℕ → (ℕ → Bool) → (ℕ → Bool)
  | [], selP => selP
  | p :: rest, selP => setChoice c rest (Function.update selP p c)

/-- The loop of `filterSuperpixels` over superpixels `0 … n - 1`
(ascending, as driven by the stage cursor). -/
def filterSuperpixelsLoop (scores : ℕ → ℚ) (thr : ℚ) (selectBelow : Bool)
    (spPixels : ℕ → List ℕ) : ℕ → ((ℕ → Bool) × (ℕ → Bool)) → ((ℕ → Bool) × (ℕ → Bool))
  | 0, st => st
  | n + 1, st =>
      let st' := filterSuperpixelsLoop scores thr selectBelow spPixels n st
      let c := filterChoice scores thr selectBelow n
      (Function.update st'.1 n c, setChoice c (spPixels n) st'.2)

/-- The complete classification stage: all `nSuperpixels` iterations of
`filterSuperpixels`, starting from the all-`false` selection arrays
allocated by `SuperpixelFilter::increment` (`superpixelfilter.cpp`
lines 85–88). -/
def filterSuperpixels (scores : ℕ → ℚ) (thr : ℚ) (selectBelow : Bool)
    (spPixels : ℕ → List ℕ) (nSuperpixels : ℕ) : (ℕ → Bool) × (ℕ → Bool) :=
  filterSuperpixelsLoop scores thr selectBelow spPixels nSuperpixels
    (fun _ => false, fun _ => false)

/-! ## Segmentation ownership transfer (`superpixellation.cpp`)

`Superpixellation` owns (unless shared) an array of `Superpixel`
objects, the per-pixel label array and the image.  The copy constructor
(lines 233–242) performs a shallow transfer: it copies all fields into
the new instance and sets `shareAll` on the *source*, so that the
source's destructor (lines 244–259) frees nothing.  The source's
pointer fields are not nulled. -/

/-- The fields of `Superpixellation`.  The three pointer members are
`Option`s because the destructor branches on their nullness. -/
structure Superpixellation where
  superpixels : Option (List Superpixel)
  img : Option ImageData
  superpixelLabels : Option (ℕ → ℕ)
  nSuperpixels : ℕ
  shareImage : Bool
  shareAll : Bool

/-- `Superpixellation::Superpixellation(Superpixellation&)` (lines
233–242): returns the new instance and the source as mutated by the
constructor (its `shareAll` flag is set). -/
def shallowTransfer (other : Superpixellation) : Superpixellation × Superpixellation :=
  ({ superpixels := other.superpixels
     img := other.img
     superpixelLabels := other.superpixelLabels
     nSuperpixels := other.nSuperpixels
     shareImage := other.shareImage
     shareAll := other.shareAll },
   { other with shareAll := true })

/-- Which resources `Superpixellation::~Superpixellation` (lines
244–259) frees: nothing at all when `shareAll` is set; otherwise the
superpixel array (when non-null), the image (when non-null and not
shared), and the label array (when non-null). -/
def destructorFrees (s : Superpixellation) : Bool × Bool × Bool :=
  if s.shareAll then (false, false, false)
  else (s.superpixels.isSome, !s.shareImage && s.img.isSome, s.superpixelLabels.isSome)

/-! ## The SLIC incremental state machine (`slic.cpp`, `algorithm.cpp`)

A value-semantics translation of the `SLIC` class.  Arrays are total
functions (allocation yields the default-valued function), `pxind` is
`ℤ` where the source relies on signedness (the loop cursor `k` goes
negative in the pixel-sort stage; labels use `-1` as `NONE`), and
`qreal` is `ℝ` (square roots occur in the distance and convergence
computations). -/

/-- `SLIC::Progress` (`slic.h` lines 89–105). -/
inductive Progress where
  | START
  | RGB2LAB
  | SEED_CENTERS
  | K_MEANS_LABEL_PIXELS
  | K_MEANS_UPDATE_CENTERS
  | K_MEANS_ASSESS_ITERATION
  | FIND_CONNECTED_COMPONENTS
  | CLASSIFY_CONNECTED_COMPONENTS
  | REASSIGN_CONNECTED_COMPONENTS
  | SORT_PIXELS_AS_SUPERPIXELS
  | CREATE_SUPERPIXEL_OBJECTS
  | INITIALIZE_OUTPUT
  | FILL_OUTPUT
  | FINALIZE_OUTPUT
  | END
deriving DecidableEq

/-- `Superpixellation::Center<QVector2D>`: a cluster center's spatial
position and L\*a\*b\* colour (both default-initialized to zero). -/
structure Center where
  position : ℝ × ℝ
  color : ℝ × ℝ × ℝ

instance : Inhabited Center := ⟨⟨(0, 0), (0, 0, 0)⟩⟩

/-- `SLIC::SizeLabelsPair` (`slic.h` lines 477–541). -/
structure SizeLabelsPair where
  size : ℤ
  cluster : ℤ
  component : ℤ

instance : Inhabited SizeLabelsPair := ⟨⟨0, -1, -1⟩⟩

/-- `SizeLabelsPair::operator<` (`slic.h` lines 519–529): descending by
cluster identifier, then ascending by component size. -/
def slpLt (x y : SizeLabelsPair) : Bool :=
  if x.cluster < y.cluster then false
  else if y.cluster < x.cluster then true
  else decide (x.size < y.size)

/-- `ods::BinaryHeap<SizeLabelsPair, pxind>` data members.  The backing
arrays are total functions (the `resize` growth bookkeeping of the
source has no observable effect in this model). -/
structure HeapState where
  a : ℤ → SizeLabelsPair
  indexToA : ℤ → ℤ
  aToIndex : ℤ → ℤ
  n : ℤ
  nIndex : ℤ

/-- `BinaryHeap::BinaryHeap`: an empty heap. -/
def emptyHeap : HeapState :=
  { a := fun _ => default, indexToA := fun _ => 0, aToIndex := fun _ => 0,
    n := 0, nIndex := 0 }

/-- `array::swap` on a function-modelled array. -/
def fswap {α : Type} (f : ℤ → α) (i j : ℤ) : ℤ → α :=
  Function.update (Function.update f i (f j)) j (f i)

/-- One simultaneous swap of the heap's three arrays, as done inside
`bubbleUp` and `trickleDown` for heap positions `i` and `j`. -/
def heapSwap (h : HeapState) (i j : ℤ) : HeapState :=
  { h with
    a := fswap h.a i j
    indexToA := fswap h.indexToA (h.aToIndex i) (h.aToIndex j)
    aToIndex := fswap h.aToIndex i j }

/-- `BinaryHeap::bubbleUp` (`BinaryHeap.h` lines 232–242); the fuel is an
upper bound on the iterations (the position at least halves each step
and the loop stops at the root). -/
def bubbleUpAux (h : HeapState) (i : ℤ) : ℕ → HeapState
  | 0 => h
  | fuel + 1 =>
      let p := (i - 1) / 2
      if 0 < i ∧ slpLt (h.a p) (h.a i) then
        bubbleUpAux (heapSwap h i p) p fuel
      else h

def bubbleUp (h : HeapState) (i : ℤ) : HeapState :=
  bubbleUpAux h i (i.toNat + 1)

/-- `BinaryHeap::trickleDown` (`BinaryHeap.h` lines 261–286); the fuel is
an upper bound on the iterations (the position at least doubles each
step and the loop stops below `n`). -/
def trickleDownAux (h : HeapState) (i : ℤ) : ℕ → HeapState
  | 0 => h
  | fuel + 1 =>
      let r := 2 * i + 2
      let l := 2 * i + 1
      let j : ℤ :=
        if r < h.n ∧ slpLt (h.a i) (h.a r) then
          (if slpLt (h.a r) (h.a l) then l else r)
        else
          (if l < h.n ∧ slpLt (h.a i) (h.a l) then l else -1)
      if 0 ≤ j then trickleDownAux (heapSwap h i j) j fuel else h

def trickleDown (h : HeapState) (i : ℤ) : HeapState :=
  trickleDownAux h i (h.n.toNat + 1)

/-- `BinaryHeap::add` (`BinaryHeap.h` lines 219–228); the returned handle
(the insertion index `nIndex`) is discarded by the caller in `slic.cpp`. -/
def heapAdd (h : HeapState) (x : SizeLabelsPair) : HeapState :=
  let h1 : HeapState :=
    { h with
      a := Function.update h.a h.n x
      indexToA := Function.update h.indexToA h.nIndex h.n
      aToIndex := Function.update h.aToIndex h.n h.nIndex
      n := h.n + 1 }
  let h2 := bubbleUp h1 h.n
  { h2 with nIndex := h.nIndex + 1 }

/-- `BinaryHeap::remove` (`BinaryHeap.h` lines 246–257). -/
def heapRemove (h : HeapState) : SizeLabelsPair × HeapState :=
  let x := h.a 0
  let nn := h.n - 1
  let h1 : HeapState :=
    { h with
      a := Function.update h.a 0 (h.a nn)
      indexToA :=
        Function.update (Function.update h.indexToA (h.aToIndex nn) 0)
          (h.aToIndex 0) (-1)
      aToIndex := Function.update (Function.update h.aToIndex 0 (h.aToIndex nn)) nn (-1)
      n := nn }
  (x, trickleDown h1 0)

/-- `BinaryHeap::operator[]` (`BinaryHeap.h` lines 288–293): access by
insertion handle through the `indexToA` indirection table. -/
def heapAt (h : HeapState) (handle : ℤ) : SizeLabelsPair :=
  h.a (h.indexToA handle)

/-- Overwrite the element with the given insertion handle (the caller
mutates the element in place through the reference `operator[]`
returns). -/
def heapSet (h : HeapState) (handle : ℤ) (x : SizeLabelsPair) : HeapState :=
  { h with a := Function.update h.a (h.indexToA handle) x }

/-- `BinaryHeap::increase` (`BinaryHeap.h` lines 295–300). -/
def heapIncrease (h : HeapState) (handle : ℤ) : HeapState :=
  bubbleUp h (h.indexToA handle)

/-- A raster output image (`QImage`): dimensions and per-coordinate RGB
contents. -/
structure OutputImage where
  width : ℕ
  height : ℕ
  pix : ℕ → ℕ → ℕ × ℕ × ℕ

/-- `QImage::isNull` for the modelled image: a zero-area image. -/
def OutputImage.isNull (o : OutputImage) : Bool :=
  decide (o.width = 0) || decide (o.height = 0)

/-- `QImage::setPixel`. -/
def OutputImage.setPixel (o : OutputImage) (x y : ℕ) (c : ℕ × ℕ × ℕ) : OutputImage :=
  { o with pix := fun xi yi => if xi = x ∧ yi = y then c else o.pix xi yi }

/-- The null `ImageData` pointer (fresh instances hold no input). -/
def noImage : ImageData :=
  ImageData.mk 0 0 (fun _ => 0) (fun _ => 0) (fun _ => 0)
    (fun _ => 0) (fun _ => 0) (fun _ => 0)

/-- `#define SLIC_ERROR_THRESHOLD 0.05` -/
noncomputable def slicErrorThreshold : ℝ := 0.05

/-- `#define SLIC_MAX_KMEANS_ITERATIONS 15` -/
def slicMaxKmeansIterations : ℕ := 15

/-- `#define SLIC_PIXEL_GRANULARITY 1000` -/
def slicPixelGranularity : ℤ := 1000

/-- `#define SLIC_CLUSTER_GRANULARITY 10` -/
def slicClusterGranularity : ℤ := 10

/-- `#define SLIC_MIN_SEARCH_WINDOW_SIZE 2` -/
def slicMinSearchWindowSize : ℤ := 2

/-- `#define SLIC_DEFAULT_OUTPUT_IMAGE_BACKGROUND qRgb(255, 255, 0)` -/
def slicOutputBackground : ℕ × ℕ × ℕ := (255, 255, 0)

/-- `#define SLIC_BORDER_COLOR qRgb(0, 0, 0)` -/
def slicBorderColor : ℕ × ℕ × ℕ := (0, 0, 0)

/-- All data members of `SLIC` (including those inherited from
`Algorithm`).  Pointers whose nullness steers control flow are
`Option`s / `Bool`s; other arrays are total functions. -/
structure SLICState where
  -- Algorithm (algorithm.h)
  input : ImageData
  outputIsEnabled : Bool
  outputImage : Option OutputImage
  outputSVG : Option Unit
  failed : Bool
  finished : Bool
  -- SLIC (slic.h)
  kParam : ℕ
  m : ℝ
  mSquared : ℝ
  S : ℤ
  sSquared : ℝ
  searchHalfWidth : ℤ
  searchHalfHeight : ℤ
  lStarOrigin : Option (ℕ → ℝ)
  aStarOrigin : Option (ℕ → ℝ)
  bStarOrigin : Option (ℕ → ℝ)
  previousCenters : ℕ → Center
  currentCenters : ℕ → Center
  clusterSearchWindow : Bool
  previousResidualError : ℝ
  residualError : ℝ
  distancesToCenters : ℕ → ℝ
  clusterLabels : ℕ → ℤ
  nPixelsPerCluster : ℕ → ℤ
  connectedComponentLabels : ℕ → ℤ
  nConnectedComponents : ℤ
  connectedComponentHeap : HeapState
  connectedComponentClassifications : Option (ℕ → Bool)
  visited : ℕ → Bool
  unvisitedPixels : List ℕ
  lastVisitedPixel : ℕ
  visitedPx : ℕ → ℕ
  pixelSortingOffsets : ℕ → ℤ
  sortedPixels : ℕ → ℕ
  superpixels : Option (ℕ → Superpixel)
  progress : Progress
  k : ℤ
  iterationCount : ℕ

/-- `SLIC::SLIC()` together with `Algorithm::Algorithm()`: the freshly
constructed instance (`kParam = 500`, `m = 10`, output enabled, no
input, everything else zero / null). -/
noncomputable def slicConstructed : SLICState :=
  { input := noImage
    outputIsEnabled := true
    outputImage := none
    outputSVG := none
    failed := false
    finished := false
    kParam := 500
    m := 10
    mSquared := 0
    S := 0
    sSquared := 0
    searchHalfWidth := 0
    searchHalfHeight := 0
    lStarOrigin := none
    aStarOrigin := none
    bStarOrigin := none
    previousCenters := fun _ => default
    currentCenters := fun _ => default
    clusterSearchWindow := false
    previousResidualError := 0
    residualError := 0
    distancesToCenters := fun _ => 0
    clusterLabels := fun _ => 0
    nPixelsPerCluster := fun _ => 0
    connectedComponentLabels := fun _ => 0
    nConnectedComponents := 0
    connectedComponentHeap := emptyHeap
    connectedComponentClassifications := none
    visited := fun _ => false
    unvisitedPixels := []
    lastVisitedPixel := 0
    visitedPx := fun _ => 0
    pixelSortingOffsets := fun _ => 0
    sortedPixels := fun _ => 0
    superpixels := none
    progress := Progress.START
    k := 0
    iterationCount := 0 }

/-- `Algorithm::disableOutput`. -/
def disableOutput (s : SLICState) : SLICState := { s with outputIsEnabled := false }

/-- `SLIC::cleanup` (lines 1028–1099) followed by `Algorithm::cleanup`
(lines 179–187): frees every owned buffer (modelled by resetting the
function to its default), deletes the input, and clears the failure and
finished flags.  The cached L\*a\*b\* channel pointers are *not* cleared
(they are non-owning) and the output image and SVG buffer are *not*
freed by `cleanup`. -/
noncomputable def slicCleanup (s : SLICState) : SLICState :=
  { s with
    previousCenters := fun _ => default
    currentCenters := fun _ => default
    clusterSearchWindow := false
    distancesToCenters := fun _ => 0
    clusterLabels := fun _ => 0
    nPixelsPerCluster := fun _ => 0
    connectedComponentLabels := fun _ => 0
    connectedComponentHeap := emptyHeap
    connectedComponentClassifications := none
    visited := fun _ => false
    unvisitedPixels := []
    visitedPx := fun _ => 0
    pixelSortingOffsets := fun _ => 0
    sortedPixels := fun _ => 0
    superpixels := none
    input := noImage
    failed := false
    finished := false }

/-- `SLIC::initialize` (lines 171–204): `Algorithm::initialize` (which
calls the virtual `cleanup` and takes ownership of the input image)
followed by the parameter computation and buffer allocation.  Always
returns success, so only the resulting state is produced. -/
noncomputable def slicInitialize (s : SLICState) (image : ImageData) : SLICState :=
  let s1 := { slicCleanup s with input := image }
  { s1 with
    mSquared := s1.m * s1.m
    S := round (Real.sqrt ((image.pixelCount : ℝ) / (s1.kParam : ℝ)))
    sSquared :=
      ((round (Real.sqrt ((image.pixelCount : ℝ) / (s1.kParam : ℝ))) *
        round (Real.sqrt ((image.pixelCount : ℝ) / (s1.kParam : ℝ))) : ℤ) : ℝ)
    searchHalfWidth := 0
    searchHalfHeight := 0
    previousCenters := fun _ => default
    currentCenters := fun _ => default
    clusterSearchWindow := false
    previousResidualError := 0
    residualError := 0
    distancesToCenters := fun _ => 0
    clusterLabels := fun _ => 0
    nPixelsPerCluster := fun _ => 0
    connectedComponentLabels := fun _ => 0
    nConnectedComponents := 0
    connectedComponentHeap := emptyHeap
    visited := fun _ => false
    unvisitedPixels := []
    lastVisitedPixel := 0
    visitedPx := fun _ => 0
    pixelSortingOffsets := fun _ => 0
    sortedPixels := fun _ => 0
    progress := Progress.START
    k := 0
    iterationCount := 0 }

/-- `QDoubleValidator().top()`: the largest finite `double`
(`DBL_MAX`), used as the initial value of the minimum-distance buffer. -/
noncomputable def validatorTop : ℝ := ((2 ^ 53 - 1 : ℕ) : ℝ) * 2 ^ 971

/-- The `RGB2LAB` stage body (`slic.cpp` lines 219–225): caches the
input's L\*a\*b\* channel pointers. -/
def rgb2labStage (s : SLICState) : SLICState :=
  { s with
    lStarOrigin := some s.input.lStar
    aStarOrigin := some s.input.aStar
    bStarOrigin := some s.input.bStar }

/-- Read a cached channel pointer (non-null whenever it is read, by
stage order; the null pointer dereference of the source is modelled by
the zero channel). -/
def chan (c : Option (ℕ → ℝ)) : ℕ → ℝ := c.getD fun _ => 0

/-- One iteration of the `SLIC::initializeCenters` loop (lines 675–706):
sample the grid position for cluster `k`, shift it to the
lowest-gradient pixel of its (replicate-padded) 8-neighbourhood, and
record the center's position and colour. -/
noncomputable def seedOneCenter (s : SLICState) : SLICState :=
  let w : ℤ := s.input.w
  let widthInS : ℤ := ⌈(w : ℝ) / (s.S : ℝ)⌉
  let width : ℤ := widthInS * s.S
  let widthConversion : ℝ := (s.S : ℝ) * (w : ℝ) / (width : ℝ)
  let sDiv2Width : ℤ := ⌊widthConversion⌋ / 2
  let h : ℤ := s.input.h
  let heightInS : ℤ := ⌈(h : ℝ) / (s.S : ℝ)⌉
  let height : ℤ := heightInS * s.S
  let heightConversion : ℝ := (s.S : ℝ) * (h : ℝ) / (height : ℝ)
  let sDiv2Height : ℤ := ⌊heightConversion⌋ / 2
  let lengthInSSquares : ℤ := widthInS * heightInS
  let kConversion : ℝ := (lengthInSSquares : ℝ) / (s.kParam : ℝ)
  let adjustedK : ℤ := round ((s.k : ℝ) * kConversion)
  let sampleX : ℤ := ⌊((adjustedK % widthInS : ℤ) : ℝ) * widthConversion⌋ + sDiv2Width
  let sampleY : ℤ := ⌊((adjustedK / widthInS : ℤ) : ℝ) * heightConversion⌋ + sDiv2Height
  let sampleK : ℕ := (w * sampleY + sampleX).toNat
  let best :=
    (s.input.eightNeighbours sampleK).foldl
      (fun acc q =>
        if lengthSq2 (s.input.sobelLabAt q) < acc.1 then
          (lengthSq2 (s.input.sobelLabAt q), q)
        else acc)
      (lengthSq2 (s.input.sobelLabAt sampleK), sampleK)
  let cx := s.input.kToX best.2
  let cy := s.input.kToY best.2
  { s with
    currentCenters :=
      Function.update s.currentCenters s.k.toNat
        { position := ((cx : ℝ), (cy : ℝ))
          color := (chan s.lStarOrigin best.2, chan s.aStarOrigin best.2,
                    chan s.bStarOrigin best.2) }
    k := s.k + 1 }

/-- The search-window sizing of `SLIC::initializeCenters` (lines
625–668), performed once when the window buffer is not yet allocated. -/
noncomputable def initializeCentersWindow (s : SLICState) : SLICState :=
  if s.clusterSearchWindow then s
  else
    let w : ℤ := s.input.w
    let widthInS : ℤ := ⌈(w : ℝ) / (s.S : ℝ)⌉
    let width : ℤ := widthInS * s.S
    let widthConversion : ℝ := (s.S : ℝ) * (w : ℝ) / (width : ℝ)
    let h : ℤ := s.input.h
    let heightInS : ℤ := ⌈(h : ℝ) / (s.S : ℝ)⌉
    let height : ℤ := heightInS * s.S
    let heightConversion : ℝ := (s.S : ℝ) * (h : ℝ) / (height : ℝ)
    let lengthInSSquares : ℤ := widthInS * heightInS
    let kConversion : ℝ := (lengthInSSquares : ℝ) / (s.kParam : ℝ)
    let shw0 : ℤ := ⌈(((⌈kConversion⌉ : ℤ) : ℝ) - 0.5) * widthConversion⌉ + 4
    let shh0 : ℤ := ⌈(((⌈kConversion⌉ : ℤ) : ℝ) - 0.5) * heightConversion⌉ + 4
    { s with
      searchHalfWidth :=
        if shw0 < slicMinSearchWindowSize * s.S then slicMinSearchWindowSize * s.S else shw0
      searchHalfHeight :=
        if shh0 < slicMinSearchWindowSize * s.S then slicMinSearchWindowSize * s.S else shh0
      clusterSearchWindow := true }

noncomputable def seedCentersLoop : ℕ → SLICState → SLICState
  | 0, s => s
  | fuel + 1, s => seedCentersLoop fuel (seedOneCenter s)

/-- `SLIC::initializeCenters` (lines 620–707). -/
noncomputable def initializeCenters (s : SLICState) (endCluster : ℤ) : SLICState :=
  seedCentersLoop (endCluster - s.k).toNat (initializeCentersWindow s)

/-- `SLIC::distanceToCenter` (lines 1013–1019). -/
noncomputable def distanceToCenter (s : SLICState) (px : ℕ) (center : Center) : ℝ :=
  let x := s.input.kToX px
  let y := s.input.kToY px
  let dsSq := lengthSq2 (center.position.1 - (x : ℝ), center.position.2 - (y : ℝ))
  let dcSq := lengthSq3
    (center.color.1 - chan s.lStarOrigin px,
     center.color.2.1 - chan s.aStarOrigin px,
     center.color.2.2 - chan s.bStarOrigin px)
  Real.sqrt (dcSq + dsSq * s.mSquared / s.sSquared)

/-- One iteration of the `SLIC::kmeansLabelPixels` loop (lines 713–730):
relabel every pixel of cluster `k`'s search window whose distance to the
center improves on the running minimum. -/
noncomputable def labelPixelsOneCluster (s : SLICState) : SLICState :=
  let center := s.currentCenters s.k.toNat
  let window := s.input.neighboursWindow
    ⌊center.position.1⌋ ⌊center.position.2⌋ s.searchHalfWidth s.searchHalfHeight
  let upd := window.foldl
    (fun (acc : (ℕ → ℝ) × (ℕ → ℤ)) ki =>
      let d := distanceToCenter s ki center
      if d < acc.1 ki then
        (Function.update acc.1 ki d, Function.update acc.2 ki s.k)
      else acc)
    (s.distancesToCenters, s.clusterLabels)
  { s with distancesToCenters := upd.1, clusterLabels := upd.2, k := s.k + 1 }

noncomputable def labelPixelsLoop : ℕ → SLICState → SLICState
  | 0, s => s
  | fuel + 1, s => labelPixelsLoop fuel (labelPixelsOneCluster s)

/-- `SLIC::kmeansLabelPixels` (lines 709–731). -/
noncomputable def kmeansLabelPixels (s : SLICState) (endCluster : ℤ) : SLICState :=
  labelPixelsLoop (endCluster - s.k).toNat s

/-- One iteration of `SLIC::kmeansUpdateCenters` (lines 736–743):
accumulate pixel `k`'s colour and position into its cluster's center and
count it. -/
noncomputable def updateCentersOnePixel (s : SLICState) : SLICState :=
  let px := s.k.toNat
  let label := (s.clusterLabels px).toNat
  let c := s.currentCenters label
  { s with
    currentCenters :=
      Function.update s.currentCenters label
        { position := (c.position.1 + (s.input.kToX px : ℝ),
                       c.position.2 + (s.input.kToY px : ℝ))
          color := (c.color.1 + chan s.lStarOrigin px,
                    c.color.2.1 + chan s.aStarOrigin px,
                    c.color.2.2 + chan s.bStarOrigin px) }
    nPixelsPerCluster :=
      Function.update s.nPixelsPerCluster label (s.nPixelsPerCluster label + 1)
    k := s.k + 1 }

noncomputable def updateCentersLoop : ℕ → SLICState → SLICState
  | 0, s => s
  | fuel + 1, s => updateCentersLoop fuel (updateCentersOnePixel s)

/-- `SLIC::kmeansUpdateCenters` (lines 733–744). -/
noncomputable def kmeansUpdateCenters (s : SLICState) (endPx : ℤ) : SLICState :=
  updateCentersLoop (endPx - s.k).toNat s

/-- One iteration of `SLIC::kmeansResidualError` (lines 746–767):
normalize cluster `k`'s center by its pixel count and — except in the
first iteration — accumulate the squared spatial displacement from the
previous iteration's center.  Colour is normalized but does not enter
the residual error. -/
noncomputable def residualErrorOneCluster (firstIteration : Bool) (s : SLICState) : SLICState :=
  let j := s.k.toNat
  let c := s.currentCenters j
  let npx : ℝ := ((s.nPixelsPerCluster j : ℤ) : ℝ)
  let newCenter : Center :=
    { position := (c.position.1 / npx, c.position.2 / npx)
      color := (c.color.1 / npx, c.color.2.1 / npx, c.color.2.2 / npx) }
  let s' := { s with
    currentCenters := Function.update s.currentCenters j newCenter
    k := s.k + 1 }
  if firstIteration then s'
  else
    let prev := (s.previousCenters j).position
    { s' with
      residualError := s.residualError +
        lengthSq2 (newCenter.position.1 - prev.1, newCenter.position.2 - prev.2) }

noncomputable def residualErrorLoop (firstIteration : Bool) : ℕ → SLICState → SLICState
  | 0, s => s
  | fuel + 1, s => residualErrorLoop firstIteration fuel (residualErrorOneCluster firstIteration s)

/-- `SLIC::kmeansResidualError` (lines 746–767). -/
noncomputable def kmeansResidualError (s : SLICState) (endCluster : ℤ)
    (firstIteration : Bool) : SLICState :=
  residualErrorLoop firstIteration (endCluster - s.k).toNat s

/-- The do-while queue pop of `labelConnectedComponents` /
`reassignConnectedComponents` (lines 780–784 and 879–882): pop entries
until an unvisited pixel is found or the queue runs out; the last popped
entry becomes the current pixel either way. -/
def popQueue (visited : ℕ → Bool) (px : ℤ) : List ℕ → ℤ × List ℕ
  | [] => (px, [])
  | q :: rest =>
      if visited q ∧ rest ≠ [] then popQueue visited px rest
      else ((q : ℤ), rest)

/-- The scan of lines 790–795: advance `lastVisitedPixel` to the first
unvisited pixel.  Returns the new cursor and that pixel (`none` when the
scan runs off the image and the stale current pixel is kept). -/
def findUnvisitedAux (visited : ℕ → Bool) : ℕ → ℕ → ℕ × Option ℕ
  | lv, 0 => (lv, none)
  | lv, fuel + 1 =>
      if visited lv then findUnvisitedAux visited (lv + 1) fuel else (lv, some lv)

/-- One iteration of `SLIC::labelConnectedComponents` (lines 776–825).
`px` and `componentLabel` are the function-local variables that persist
across the iterations of one call (both start at `NONE = -1`). -/
def labelCCOnePixel (s : SLICState) (px componentLabel : ℤ) : SLICState × ℤ × ℤ :=
  let pq :=
    if s.unvisitedPixels ≠ [] then popQueue s.visited px s.unvisitedPixels
    else (px, s.unvisitedPixels)
  let px := pq.1
  let s := { s with unvisitedPixels := pq.2 }
  let startNew := px = -1 ∨ s.visited px.toNat
  let componentLabel := if startNew then s.nConnectedComponents else componentLabel
  let s := if startNew then { s with nConnectedComponents := s.nConnectedComponents + 1 } else s
  let scan := findUnvisitedAux s.visited s.lastVisitedPixel
    (s.input.pixelCount - s.lastVisitedPixel)
  let px := if startNew then (match scan.2 with | some p => (p : ℤ) | none => px) else px
  let s := if startNew then { s with lastVisitedPixel := scan.1 } else s
  let heapWithNew :=
    heapAdd s.connectedComponentHeap
      (SizeLabelsPair.mk 0 (s.clusterLabels px.toNat) componentLabel)
  let s := if startNew then { s with connectedComponentHeap := heapWithNew } else s
  let clusterLabel := s.clusterLabels px.toNat
  let nb := (s.input.fourNeighbours px.toNat).foldl
    (fun (acc : List ℕ × ℤ) q =>
      if clusterLabel = s.clusterLabels q then
        if s.visited q then (acc.1, s.connectedComponentLabels q)
        else (acc.1 ++ [q], acc.2)
      else acc)
    (s.unvisitedPixels, componentLabel)
  let componentLabel := nb.2
  let s := { s with
    unvisitedPixels := nb.1
    visited := Function.update s.visited px.toNat true
    connectedComponentLabels :=
      Function.update s.connectedComponentLabels px.toNat componentLabel }
  let item := heapAt s.connectedComponentHeap componentLabel
  let s := { s with
    connectedComponentHeap :=
      heapIncrease
        (heapSet s.connectedComponentHeap componentLabel { item with size := item.size + 1 })
        componentLabel }
  ({ s with k := s.k + 1 }, px, componentLabel)

def labelCCLoop : ℕ → SLICState × ℤ × ℤ → SLICState × ℤ × ℤ
  | 0, st => st
  | fuel + 1, (s, px, cl) => labelCCLoop fuel (labelCCOnePixel s px cl)

/-- `SLIC::labelConnectedComponents` (lines 769–826). -/
def labelConnectedComponents (s : SLICState) (endPx : ℤ) : SLICState :=
  (labelCCLoop (endPx - s.k).toNat (s, -1, -1)).1

/-- The pop-until-reached loop of `classifyConnectedComponents`
(lines 838–840). -/
def classifyPopLoop (k : ℤ) : SizeLabelsPair → HeapState → ℕ → SizeLabelsPair × HeapState
  | item, heap, 0 => (item, heap)
  | item, heap, fuel + 1 =>
      if item.cluster < k ∧ 0 < heap.n then
        let r := heapRemove heap
        classifyPopLoop k r.1 r.2 fuel
      else (item, heap)

/-- One iteration of `SLIC::classifyConnectedComponents` (lines 836–854,
`SLIC_SELECT_LARGEST_COMPONENTS` variant): pop the heap in order until
an entry of cluster `k` surfaces; that entry is the cluster's largest
connected component and is marked kept. -/
def classifyOneCluster (s : SLICState) (item : SizeLabelsPair) : SLICState × SizeLabelsPair :=
  let r := classifyPopLoop s.k item s.connectedComponentHeap
    (s.connectedComponentHeap.n.toNat + 1)
  let item := r.1
  let s := { s with connectedComponentHeap := r.2 }
  let newClassifications :=
    some (Function.update (s.connectedComponentClassifications.getD fun _ => false)
      item.component.toNat true)
  let s :=
    if item.cluster = s.k then
      { s with connectedComponentClassifications := newClassifications }
    else s
  ({ s with k := s.k + 1 }, item)

def classifyLoop : ℕ → SLICState × SizeLabelsPair → SLICState × SizeLabelsPair
  | 0, st => st
  | fuel + 1, (s, item) => classifyLoop fuel (classifyOneCluster s item)

/-- `SLIC::classifyConnectedComponents` (lines 828–855).  The local
`item` starts as the default pair (cluster `NONE`). -/
def classifyConnectedComponents (s : SLICState) (endCluster : ℤ) : SLICState :=
  (classifyLoop (endCluster - s.k).toNat (s, default)).1

/-- Whether a pixel's connected component was classified "kept". -/
def ccKept (s : SLICState) (q : ℕ) : Bool :=
  (s.connectedComponentClassifications.getD fun _ => false)
    (s.connectedComponentLabels q).toNat

/-- One iteration of the `while(!done)` search of
`reassignConnectedComponents` (lines 877–906). -/
def reassignWhileLoop : SLICState → ℤ → ℤ → ℕ → SLICState × ℤ × ℤ
  | s, px, nVisited, 0 => (s, px, nVisited)
  | s, px, nVisited, fuel + 1 =>
      let pq :=
        if s.unvisitedPixels ≠ [] then popQueue s.visited px s.unvisitedPixels
        else (px, s.unvisitedPixels)
      let px := pq.1
      let s := { s with unvisitedPixels := pq.2 }
      let res := (s.input.fourNeighbours px.toNat).foldl
        (fun (acc : SLICState × Bool) q =>
          if acc.2 then acc
          else
            let st := acc.1
            if ¬st.visited q then
              if ccKept st q then
                let oldLab := (st.clusterLabels st.k.toNat).toNat
                let f1 := Function.update st.nPixelsPerCluster oldLab
                  (st.nPixelsPerCluster oldLab - 1)
                let st := { st with nPixelsPerCluster := f1 }
                let f2 := Function.update st.clusterLabels st.k.toNat (st.clusterLabels q)
                let st := { st with clusterLabels := f2 }
                let newLab := (st.clusterLabels st.k.toNat).toNat
                let f3 := Function.update st.nPixelsPerCluster newLab
                  (st.nPixelsPerCluster newLab + 1)
                let st := { st with nPixelsPerCluster := f3 }
                (st, true)
              else ({ st with unvisitedPixels := st.unvisitedPixels ++ [q] }, false)
            else acc)
        (s, false)
      let s := res.1
      let s := { s with visited := Function.update s.visited px.toNat true }
      let nVisited := nVisited + 1
      let s := { s with visitedPx := Function.update s.visitedPx nVisited.toNat px.toNat }
      if res.2 then (s, px, nVisited) else reassignWhileLoop s px nVisited fuel

/-- The cleanup loop of lines 909–911: unmark the visited pixels
recorded on the `visitedPx` stack. -/
def reassignCleanupAux : SLICState → ℤ → ℕ → SLICState
  | s, _, 0 => s
  | s, nV, fuel + 1 =>
      if 0 ≤ nV then
        reassignCleanupAux
          { s with visited := Function.update s.visited (s.visitedPx nV.toNat) false }
          (nV - 1) fuel
      else s

/-- One iteration of `SLIC::reassignConnectedComponents` (lines
864–913): if pixel `k`'s component was discarded, breadth-first search
from `k` for the nearest pixel of a kept component and adopt its
cluster label.  The while-loop fuel bounds an execution in which every
pixel is visited at most once with all its queue insertions; the source
does not terminate when no kept component is reachable. -/
def reassignOnePixel (s : SLICState) (px : ℤ) : SLICState × ℤ :=
  if ¬ccKept s s.k.toNat then
    let s := { s with unvisitedPixels := [s.k.toNat] }
    let r := reassignWhileLoop s px (-1) (8 * (s.input.pixelCount + 1))
    let s := reassignCleanupAux r.1 r.2.2 (r.2.2.toNat + 1)
    ({ s with k := s.k + 1 }, r.2.1)
  else ({ s with k := s.k + 1 }, px)

def reassignLoop : ℕ → SLICState × ℤ → SLICState × ℤ
  | 0, st => st
  | fuel + 1, (s, px) => reassignLoop fuel (reassignOnePixel s px)

/-- `SLIC::reassignConnectedComponents` (lines 857–914). -/
def reassignConnectedComponents (s : SLICState) (endPx : ℤ) : SLICState :=
  (reassignLoop (endPx - s.k).toNat (s, -1)).1

/-- The offset-table initialization of the sort stage
(`SLIC::increment`, lines 312–317), as the inclusive prefix sums of
`nPixelsPerCluster`. -/
def bucketEndsZ (nPer : ℕ → ℤ) : ℕ → ℤ
  | 0 => nPer 0
  | i + 1 => nPer (i + 1) + bucketEndsZ nPer i

/-- One iteration of `SLIC::sortPixelsIntoSuperpixels` (lines 918–923):
decrement the pixel's cluster offset and store the pixel there.  The
cursor `k` moves downward. -/
def sortOnePixel (s : SLICState) : SLICState :=
  let label := (s.clusterLabels s.k.toNat).toNat
  let off := s.pixelSortingOffsets label - 1
  { s with
    pixelSortingOffsets := Function.update s.pixelSortingOffsets label off
    sortedPixels := Function.update s.sortedPixels off.toNat s.k.toNat
    k := s.k - 1 }

def sortLoop : ℕ → SLICState → SLICState
  | 0, s => s
  | fuel + 1, s => sortLoop fuel (sortOnePixel s)

/-- `SLIC::sortPixelsIntoSuperpixels` (lines 916–924): the loop runs
while `k ≥ endPx`. -/
def sortPixelsStage (s : SLICState) (endPx : ℤ) : SLICState :=
  sortLoop (s.k - endPx + 1).toNat s

instance : Inhabited Superpixel := ⟨⟨0, [], 0, 0, (0, 0, 0), 0, (0, 0, 0)⟩⟩

/-- One iteration of `SLIC::createSuperpixels` (lines 931–938): copy
cluster `k`'s slice of the sorted pixel array and construct its
`Superpixel`. -/
noncomputable def createOneSuperpixel (s : SLICState) : SLICState :=
  let j := s.k.toNat
  let nPx := (s.nPixelsPerCluster j).toNat
  let startPx := (s.pixelSortingOffsets j).toNat
  let slice := (List.range' startPx nPx).map s.sortedPixels
  let sp := mkSuperpixel j slice (fun p => (s.clusterLabels p).toNat) s.input
  { s with
    superpixels := some (Function.update (s.superpixels.getD fun _ => default) j sp)
    k := s.k + 1 }

noncomputable def createLoop : ℕ → SLICState → SLICState
  | 0, s => s
  | fuel + 1, s => createLoop fuel (createOneSuperpixel s)

/-- `SLIC::createSuperpixels` (lines 926–939). -/
noncomputable def createSuperpixelsStage (s : SLICState) (endCluster : ℤ) : SLICState :=
  createLoop (endCluster - s.k).toNat s

/-- `SLIC::initializeOutput` (lines 1021–1026) via
`Algorithm::initializeOutput` (lines 131–161) with no vector output:
allocate the raster output image filled with the background colour.
Returns the new state and the success flag. -/
def slicInitializeOutputStage (s : SLICState) : SLICState × Bool :=
  if ¬s.outputIsEnabled then (s, false)
  else
    let img : OutputImage :=
      { width := s.input.w, height := s.input.h, pix := fun _ _ => slicOutputBackground }
    ({ s with outputImage := some img }, !img.isNull)

/-- One iteration of `SLIC::fillOutputImage` (lines 957–1010, with the
label-visualization compile flags off): paint the superpixel's interior
pixels with its mean RGB colour and its boundary pixels with the border
colour. -/
def fillOneSuperpixel (s : SLICState) : SLICState :=
  let sp := (s.superpixels.getD fun _ => default) s.k.toNat
  let o0 := s.outputImage.getD { width := 0, height := 0, pix := fun _ _ => slicOutputBackground }
  let o1 := sp.interiorPixels.foldl
    (fun o p => o.setPixel (s.input.kToX p) (s.input.kToY p) sp.centerRGB) o0
  let o2 := sp.boundaryPixels.foldl
    (fun o p => o.setPixel (s.input.kToX p) (s.input.kToY p) slicBorderColor) o1
  { s with outputImage := some o2, k := s.k + 1 }

def fillLoop : ℕ → SLICState → SLICState
  | 0, s => s
  | fuel + 1, s => fillLoop fuel (fillOneSuperpixel s)

/-- `SLIC::fillOutputImage` (lines 941–1011). -/
def fillOutputImageStage (s : SLICState) (endCluster : ℤ) : SLICState :=
  fillLoop (endCluster - s.k).toNat s

/-- `SLIC::getLoopLimit` (lines 555–618). -/
def getLoopLimit (s : SLICState) : ℤ :=
  match s.progress with
  | Progress.SEED_CENTERS => s.kParam
  | Progress.K_MEANS_LABEL_PIXELS => s.kParam
  | Progress.K_MEANS_UPDATE_CENTERS => s.input.pixelCount
  | Progress.K_MEANS_ASSESS_ITERATION => s.kParam
  | Progress.FIND_CONNECTED_COMPONENTS => s.input.pixelCount
  | Progress.CLASSIFY_CONNECTED_COMPONENTS => s.kParam
  | Progress.REASSIGN_CONNECTED_COMPONENTS => s.input.pixelCount
  | Progress.CREATE_SUPERPIXEL_OBJECTS => s.kParam
  | Progress.FILL_OUTPUT => s.kParam
  | _ => 0

/-- The quantity compared against `SLIC_ERROR_THRESHOLD` in
`SLIC::updateKAndProgress` (line 411):
`abs((sqrt(residualError) - sqrt(previousResidualError)) / sqrt(previousResidualError))`. -/
noncomputable def kmeansErrorChange (res prev : ℝ) : ℝ :=
  |(Real.sqrt res - Real.sqrt prev) / Real.sqrt prev|

/-- The stopping test of the k-means loop (`slic.cpp` lines 411–416):
the final iteration index is reached, or more than one iteration has
completed and the error change is at most the threshold.  The conjunct
`0 < prev` renders the IEEE behaviour of the source exactly: when
`previousResidualError` is zero the division yields `±inf` or `NaN`,
and either compares false against the threshold (whereas in `ℝ` the
convention `x / 0 = 0` would compare true). -/
noncomputable def kmeansStopCondition (it : ℕ) (res prev : ℝ) : Prop :=
  it = slicMaxKmeansIterations - 1 ∨
    (1 < it ∧ 0 < prev ∧ kmeansErrorChange res prev ≤ slicErrorThreshold)

/-- The stage-advance portion of `SLIC::updateKAndProgress` (lines
385–479): when the cursor reports the current loop complete, reset it
and move to the next stage (with the k-means convergence decision at
`K_MEANS_ASSESS_ITERATION`). -/
noncomputable def advanceProgress (s : SLICState) : SLICState :=
  if (s.k = getLoopLimit s ∧ s.progress ≠ Progress.SORT_PIXELS_AS_SUPERPIXELS) ∨
     (s.progress = Progress.SORT_PIXELS_AS_SUPERPIXELS ∧ s.k < getLoopLimit s) then
    let s := { s with k := 0 }
    match s.progress with
    | Progress.START => { s with progress := Progress.RGB2LAB }
    | Progress.RGB2LAB => { s with progress := Progress.SEED_CENTERS }
    | Progress.SEED_CENTERS => { s with progress := Progress.K_MEANS_LABEL_PIXELS }
    | Progress.K_MEANS_LABEL_PIXELS =>
        { s with progress := Progress.K_MEANS_UPDATE_CENTERS }
    | Progress.K_MEANS_UPDATE_CENTERS =>
        { s with progress := Progress.K_MEANS_ASSESS_ITERATION }
    | Progress.K_MEANS_ASSESS_ITERATION =>
        if kmeansStopCondition s.iterationCount s.residualError s.previousResidualError then
          { s with progress := Progress.FIND_CONNECTED_COMPONENTS }
        else
          { s with
            progress := Progress.K_MEANS_LABEL_PIXELS
            iterationCount := s.iterationCount + 1
            previousCenters := s.currentCenters
            previousResidualError := s.residualError
            residualError := 0 }
    | Progress.FIND_CONNECTED_COMPONENTS =>
        { s with progress := Progress.CLASSIFY_CONNECTED_COMPONENTS }
    | Progress.CLASSIFY_CONNECTED_COMPONENTS =>
        { s with progress := Progress.REASSIGN_CONNECTED_COMPONENTS }
    | Progress.REASSIGN_CONNECTED_COMPONENTS =>
        { s with k := (s.input.pixelCount : ℤ) - 1,
                 progress := Progress.SORT_PIXELS_AS_SUPERPIXELS }
    | Progress.SORT_PIXELS_AS_SUPERPIXELS =>
        { s with progress := Progress.CREATE_SUPERPIXEL_OBJECTS }
    | Progress.CREATE_SUPERPIXEL_OBJECTS =>
        if s.outputIsEnabled then { s with progress := Progress.INITIALIZE_OUTPUT }
        else { s with progress := Progress.END }
    | Progress.INITIALIZE_OUTPUT => { s with progress := Progress.FILL_OUTPUT }
    | Progress.FILL_OUTPUT => { s with progress := Progress.FINALIZE_OUTPUT }
    | Progress.FINALIZE_OUTPUT => { s with progress := Progress.END }
    | Progress.END => s
  else s

/-- The per-stage increment size (`SLIC::updateKAndProgress`, lines
482–543): cluster or pixel granularity, negative in the downward sort
stage. -/
def progressInc (p : Progress) : ℤ :=
  match p with
  | Progress.SEED_CENTERS => slicClusterGranularity
  | Progress.K_MEANS_LABEL_PIXELS => slicClusterGranularity
  | Progress.K_MEANS_UPDATE_CENTERS => slicPixelGranularity
  | Progress.K_MEANS_ASSESS_ITERATION => slicClusterGranularity
  | Progress.FIND_CONNECTED_COMPONENTS => slicPixelGranularity
  | Progress.CLASSIFY_CONNECTED_COMPONENTS => slicClusterGranularity
  | Progress.REASSIGN_CONNECTED_COMPONENTS => slicPixelGranularity
  | Progress.SORT_PIXELS_AS_SUPERPIXELS => -slicPixelGranularity
  | Progress.CREATE_SUPERPIXEL_OBJECTS => slicClusterGranularity
  | Progress.FILL_OUTPUT => slicClusterGranularity
  | _ => 0

/-- `SLIC::updateKAndProgress` (lines 379–553): advance the stage if
due, then compute the clamped end of the next work quantum. -/
noncomputable def updateKAndProgress (s : SLICState) : SLICState × ℤ :=
  let s := advanceProgress s
  let loopLimit := getLoopLimit s
  let incEnd := s.k + progressInc s.progress
  let incEnd :=
    if incEnd > loopLimit ∧ s.progress ≠ Progress.SORT_PIXELS_AS_SUPERPIXELS then loopLimit
    else if s.progress = Progress.SORT_PIXELS_AS_SUPERPIXELS ∧ incEnd < loopLimit then loopLimit
    else incEnd
  (s, incEnd)

/-- The stage dispatch of `SLIC::increment` (lines 218–364), including
the per-stage `k == 0` (or `k == pixelCount - 1`) initializations. -/
noncomputable def slicStageBody (s : SLICState) (incEnd : ℤ) : SLICState :=
  match s.progress with
  | Progress.RGB2LAB => rgb2labStage s
  | Progress.SEED_CENTERS => initializeCenters s incEnd
  | Progress.K_MEANS_LABEL_PIXELS =>
      let s := if s.k = 0 then
          { s with distancesToCenters := fun _ => validatorTop
                   clusterLabels := fun _ => -1 }
        else s
      kmeansLabelPixels s incEnd
  | Progress.K_MEANS_UPDATE_CENTERS =>
      let s := if s.k = 0 then
          { s with nPixelsPerCluster := fun _ => 0
                   currentCenters := fun _ => default }
        else s
      kmeansUpdateCenters s incEnd
  | Progress.K_MEANS_ASSESS_ITERATION =>
      if 0 < s.iterationCount then kmeansResidualError s incEnd false
      else kmeansResidualError s incEnd true
  | Progress.FIND_CONNECTED_COMPONENTS =>
      let s := if s.k = 0 then
          { s with visited := fun _ => false
                   connectedComponentLabels := fun _ => -1 }
        else s
      labelConnectedComponents s incEnd
  | Progress.CLASSIFY_CONNECTED_COMPONENTS =>
      let s := if s.k = 0 then
          { s with connectedComponentClassifications := some fun _ => false }
        else s
      classifyConnectedComponents s incEnd
  | Progress.REASSIGN_CONNECTED_COMPONENTS =>
      let s := if s.k = 0 then { s with visited := fun _ => false } else s
      reassignConnectedComponents s incEnd
  | Progress.SORT_PIXELS_AS_SUPERPIXELS =>
      let s := if s.k = (s.input.pixelCount : ℤ) - 1 then
          { s with pixelSortingOffsets := fun i => bucketEndsZ s.nPixelsPerCluster i }
        else s
      sortPixelsStage s incEnd
  | Progress.CREATE_SUPERPIXEL_OBJECTS =>
      let s := if s.k = 0 then
          { s with superpixels := some fun _ => default }
        else s
      createSuperpixelsStage s incEnd
  | Progress.INITIALIZE_OUTPUT =>
      let r := slicInitializeOutputStage s
      { r.1 with failed := !r.2 }
  | Progress.FILL_OUTPUT => fillOutputImageStage s incEnd
  | Progress.FINALIZE_OUTPUT => s
  | Progress.END => { s with finished := true }
  | Progress.START => { s with failed := true }

/-- `SLIC::increment` (lines 206–368).  Returns the new state, the
`done` out-parameter `f`, and the boolean return value (success).  When
processing has already failed the source returns failure immediately,
without touching any state and without writing `f`; the returned `f` is
`false` here as the driving thread passes a fresh `false` in. -/
noncomputable def slicIncrement (s : SLICState) : SLICState × Bool × Bool :=
  if s.failed then (s, false, false)
  else if s.finished then (s, s.finished, false)
  else
    let r := updateKAndProgress s
    let s1 := slicStageBody r.1 r.2
    (s1, s1.finished, !s1.failed)

/-- `Algorithm::output` (lines 114–125): null the out-parameters, fail
unless processing finished without failure and output is enabled,
otherwise hand over ownership of the raster image and optional SVG
data.  Returns the new state, the two outputs, and success. -/
def algorithmOutput (s : SLICState) :
    SLICState × Option OutputImage × Option Unit × Bool :=
  if ¬s.finished ∨ s.failed ∨ ¬s.outputIsEnabled then (s, none, none, false)
  else ({ s with outputImage := none, outputSVG := none },
        s.outputImage, s.outputSVG, true)

/-- `SLIC::outputSuperpixellation` (lines 370–377): available only when
processing finished without failure; transfers the image, label array
and superpixel array into a fresh `Superpixellation`. -/
noncomputable def outputSuperpixellation (s : SLICState) :
    Option Superpixellation :=
  if s.failed ∨ ¬s.finished then none
  else
    some
      { superpixels :=
          some ((List.range s.kParam).map (s.superpixels.getD fun _ => default))
        img := some s.input
        superpixelLabels := some fun p => (s.clusterLabels p).toNat
        nSuperpixels := s.kParam
        shareImage := false
        shareAll := false }

/-- Iterated `increment` calls (the driver's loop). -/
noncomputable def slicRun (s : SLICState) : ℕ → SLICState
  | 0 => s
  | n + 1 => (slicIncrement (slicRun s n)).1

/-- The k-means stopping test as the claim words it: the relative change
in the summed squared center-position displacement itself — not in its
square root.  Written from the spec's words, for comparison with the
source's `kmeansStopCondition`. -/
noncomputable def claimedStopCondition (it : ℕ) (res prev : ℝ) : Prop :=
  it = slicMaxKmeansIterations - 1 ∨
    (1 < it ∧ 0 < prev ∧ |res - prev| / prev ≤ slicErrorThreshold)

/-- `LocalDataFilter`'s `Progress` enumeration (`localdatafilter.h` lines
146–159). -/
inductive LDFProgress where
  | START
  | GENERATE_SUPERPIXELS
  | RGB2LAB
  | COLLECT_STATISTICS
  | NORMALIZE_STATISTICS
  | CONSTRUCT_HISTOGRAM
  | CHOOSE_OTSU_THRESHOLD
  | FILTER_SUPERPIXELS
  | INITIALIZE_OUTPUT
  | FILL_OUTPUT
  | FINALIZE_OUTPUT
  | END
  deriving DecidableEq

/-- The state of a `LocalDataFilter` instance: the `Algorithm` base
fields, the `SuperpixelFilter` fields (including the owned superpixel
generator, embedded as its `SLICState`), and the `LocalDataFilter`
fields touched by initialization and cleanup (`localdatafilter.h`,
`superpixelfilter.h`, `algorithm.h`). -/
structure LDFState where
  -- Algorithm (algorithm.h)
  input : Option ImageData
  outputIsEnabled : Bool
  outputImage : Option OutputImage
  outputSVG : Option Unit
  failed : Bool
  finished : Bool
  -- SuperpixelFilter (superpixelfilter.h)
  generator : SLICState
  superpixellation : Option Superpixellation
  selectedSuperpixels : Option (ℕ → Bool)
  selectedPixels : Option (ℕ → Bool)
  isSuperpixelGenerationFinished : Bool
  canDeleteInput : Bool
  -- LocalDataFilter (localdatafilter.h)
  basis : ScoreBasis
  selectionMap : Option ImageData
  lStarSelectionMap : Option (ℕ → ℝ)
  superpixelScores : Option (ℕ → ℝ)
  maxScore : ℝ
  minScore : ℝ
  inverseBinWidth : ℝ
  histogram : Option (ℕ → ℕ)
  nHistogramBins : ℕ
  otsuThreshold : ℝ
  selectBelowThreshold : Bool
  outputInRow : Bool
  progress : LDFProgress
  k : ℤ

/-- A freshly constructed `LocalDataFilter` (constructor, lines 90–133,
with the `SuperpixelFilter` and `Algorithm` constructors): takes
ownership of the superpixel generator and disables its output. -/
noncomputable def ldfConstructed (basis : ScoreBasis) (generator : SLICState) : LDFState :=
  { input := none
    outputIsEnabled := true
    outputImage := none
    outputSVG := none
    failed := false
    finished := false
    generator := disableOutput generator
    superpixellation := none
    selectedSuperpixels := none
    selectedPixels := none
    isSuperpixelGenerationFinished := false
    canDeleteInput := true
    basis := basis
    selectionMap := none
    lStarSelectionMap := none
    superpixelScores := none
    maxScore := 0
    minScore := 0
    inverseBinWidth := 0
    histogram := none
    nHistogramBins := 0
    otsuThreshold := 0
    selectBelowThreshold := selectBelowThresholdFor basis
    outputInRow := false
    progress := LDFProgress.START
    k := 0 }

/-- `Algorithm::cleanup` (lines 179–187) on the filter's own base
fields: `finalizeOutput` frees only the SVG painter infrastructure (not
part of the state model — the output image and SVG data objects are
preserved), the input image is freed and nulled, and the failure and
finished flags are reset. -/
def algorithmCleanupFilter (s : LDFState) : LDFState :=
  { s with input := none, failed := false, finished := false }

/-- `SuperpixelFilter::cleanup` (lines 119–136): when the input is not
owned the pointer is nulled without freeing, the derived buffers are
freed, then `Algorithm::cleanup` runs. -/
def superpixelFilterCleanup (s : LDFState) : LDFState :=
  let s1 := if s.canDeleteInput then s else { s with input := none }
  algorithmCleanupFilter
    { s1 with
        superpixellation := none
        selectedSuperpixels := none
        selectedPixels := none }

/-- `LocalDataFilter::cleanup` (lines 734–749): the selection map, its
lightness alias, the score array and the histogram are freed and
nulled, then `SuperpixelFilter::cleanup` runs. -/
def ldfCleanup (s : LDFState) : LDFState :=
  superpixelFilterCleanup
    { s with
        selectionMap := none
        lStarSelectionMap := none
        superpixelScores := none
        histogram := none }

/-- `LocalDataFilter::initialize(ImageData*&)` (lines 179–196):
`SuperpixelFilter::initialize(ImageData*&)` (lines 52–56, which clears
the generation-finished flag and runs `Algorithm::initialize` — the
virtual `cleanup` followed by taking ownership of the image, always
succeeding), then the scalar scoring fields are reset.  The boolean is
the returned success value. -/
noncomputable def ldfInitializeImage (s : LDFState) (image : ImageData) : LDFState × Bool :=
  let s1 := { s with isSuperpixelGenerationFinished := false }
  let s2 := { ldfCleanup s1 with input := some image, failed := false }
  ({ s2 with
      maxScore := -validatorTop
      minScore := validatorTop
      inverseBinWidth := 0
      nHistogramBins := 0
      otsuThreshold := 0
      outputInRow := false
      progress := LDFProgress.START
      k := 0 }, true)

/-- `SuperpixelFilter::initialize(QVector<ImageData*>*&)` (lines
42–50): the generator consumes the vector (its `Algorithm::initialize`
dispatches to `SLIC::initialize` on the first image and always
succeeds), the input is marked as not owned, and the virtual
single-image `initialize` runs on the first image. -/
noncomputable def superpixelFilterInitializeVec (s : LDFState) (images : List ImageData) :
    LDFState × Bool :=
  let temp := images.getD 0 noImage
  let s1 := { s with generator := slicInitialize s.generator temp, failed := false }
  let s2 := { s1 with canDeleteInput := false }
  ldfInitializeImage s2 temp

/-- `LocalDataFilter::initialize(QVector<ImageData*>*&)` (lines
146–177).  The results after the state are: the returned success value,
whether the first input image was freed, and whether the second input
image was freed. -/
noncomputable def ldfInitializeVec (s : LDFState) (images : List ImageData) :
    LDFState × Bool × Bool × Bool :=
  let firstImage := images.getD 0 noImage
  let secondImage : Option ImageData :=
    if s.basis = ScoreBasis.EXTERNAL then some (images.getD 1 noImage) else none
  let images1 :=
    if s.basis = ScoreBasis.EXTERNAL then images.eraseIdx 1 else images
  let s1 :=
    if s.basis = ScoreBasis.EXTERNAL ∧
        (firstImage.w ≠ (images.getD 1 noImage).w ∨
         firstImage.h ≠ (images.getD 1 noImage).h) then
      { s with failed := true }
    else s
  let s2 :=
    if s1.failed then s1
    else
      let q := superpixelFilterInitializeVec s1 images1
      { q.1 with failed := !q.2 }
  if s2.failed then (s2, false, true, secondImage.isSome)
  else ({ s2 with selectionMap := secondImage }, true, false, false)

end Defs

end Stippler

namespace Stippler

section MainTheorems

open scoped Classical

theorem bucketStart_succ (nPer : ℕ → ℕ) (j : ℕ) :
    bucketStart nPer (j + 1) = bucketStart nPer j + nPer j :=
  Finset.sum_range_succ nPer j

theorem bucketStart_mono (nPer : ℕ → ℕ) {j l : ℕ} (h : j ≤ l) :
    bucketStart nPer j ≤ bucketStart nPer l := by
  unfold bucketStart
  exact Finset.sum_le_sum_of_subset (Finset.range_subset.mpr h)

theorem bucketEndsAux_eq (nPer : ℕ → ℕ) (i : ℕ) :
    bucketEndsAux nPer i = bucketStart nPer (i + 1) := by
  induction i with
  | zero => simp [bucketEndsAux, bucketStart]
  | succ n ih =>
      rw [bucketEndsAux, ih, bucketStart_succ nPer (n + 1)]
      omega

theorem labelCount_succ (labels : ℕ → ℕ) (j m : ℕ) :
    labelCount labels j (m + 1) =
      labelCount labels j m + if labels m = j then 1 else 0 := by
  unfold labelCount
  rw [List.range_succ, List.filter_append, List.length_append]
  by_cases h : labels m = j <;> simp [h]

theorem labelCount_mono (labels : ℕ → ℕ) (j : ℕ) {m n : ℕ} (h : m ≤ n) :
    labelCount labels j m ≤ labelCount labels j n :=
  List.Sublist.length_le
    (List.Sublist.filter _ (List.range_sublist.mpr h))

theorem segMap_succ (f : ℕ → ℕ) (a len : ℕ) :
    segMap f a (len + 1) = f a :: segMap f (a + 1) len := by
  rw [segMap, List.range'_succ, List.map_cons]; rfl

theorem segMap_congr {f g : ℕ → ℕ} (a len : ℕ)
    (h : ∀ q, a ≤ q → q < a + len → f q = g q) :
    segMap f a len = segMap g a len := by
  unfold segMap
  refine List.map_congr_left fun q hq => ?_
  have := List.mem_range'_1.mp hq
  exact h q this.1 this.2

/-- Invariant of the downward counting-sort scan: when the pixels
`m, m + 1, …, N - 1` have already been placed, each cluster's offset
sits `labelCount labels j m` above its bucket start, and the tail of
each bucket holds exactly the already-placed pixels of that cluster in
ascending order.  Running the remaining `m` steps completes every
bucket. -/
theorem countingSortAux_spec (labels nPer : ℕ → ℕ) (K N : ℕ)
    (hval : ∀ p, p < N → labels p < K)
    (hcnt : ∀ j, j < K → nPer j = labelCount labels j N) :
    ∀ m, m ≤ N → ∀ off sorted,
      (∀ j, j < K → off j = bucketStart nPer j + labelCount labels j m) →
      (∀ j, j < K →
        segMap sorted (off j) (nPer j - labelCount labels j m) =
          filterLab labels j (List.range' m (N - m))) →
      (∀ j, j < K → (countingSortAux labels m (off, sorted)).1 j = bucketStart nPer j) ∧
      (∀ j, j < K →
        segMap (countingSortAux labels m (off, sorted)).2 (bucketStart nPer j) (nPer j) =
          filterLab labels j (List.range N)) := by
  intro m
  induction m with
  | zero =>
      intro _ off sorted hoff hseg
      constructor
      · intro j hj
        have h := hoff j hj
        simpa [countingSortAux, labelCount] using h
      · intro j hj
        have h1 := hseg j hj
        have h2 := hoff j hj
        simp only [labelCount, List.range_zero, List.filter_nil, List.length_nil,
          Nat.add_zero, Nat.sub_zero] at h1 h2
        rw [h2] at h1
        simpa [countingSortAux, List.range_eq_range'] using h1
  | succ m ih =>
      intro hmN off sorted hoff hseg
      have hm : m < N := hmN
      set l := labels m with hldef
      have hlK : l < K := hval m hm
      have hcl : labelCount labels l (m + 1) = labelCount labels l m + 1 := by
        rw [labelCount_succ]; simp [hldef]
      have hcntle : labelCount labels l (m + 1) ≤ nPer l := by
        rw [hcnt l hlK]; exact labelCount_mono labels l hmN
      have hoffl := hoff l hlK
      have hge : bucketStart nPer l + 1 ≤ off l := by omega
      have hrange : List.range' m (N - m) = m :: List.range' (m + 1) (N - (m + 1)) := by
        have h : N - m = (N - (m + 1)) + 1 := by omega
        rw [h, List.range'_succ]
      simp only [countingSortAux]
      rw [← hldef]
      apply ih (Nat.le_of_lt hm)
      · -- updated offsets
        intro j hj
        by_cases hjl : j = l
        · subst hjl
          rw [Function.update_same]
          omega
        · rw [Function.update_noteq hjl]
          have hcj : labelCount labels j (m + 1) = labelCount labels j m := by
            rw [labelCount_succ]
            simp [← hldef, Ne.symm hjl]
          rw [hoff j hj, hcj]
      · -- updated segments
        intro j hj
        have hcntlej : labelCount labels j (m + 1) ≤ nPer j := by
          rw [hcnt j hj]; exact labelCount_mono labels j hmN
        by_cases hjl : j = l
        · subst hjl
          rw [Function.update_same]
          have hlen : nPer l - labelCount labels l m =
              (nPer l - labelCount labels l (m + 1)) + 1 := by omega
          rw [hlen, segMap_succ, hrange]
          have hid : off l - 1 + 1 = off l := by omega
          have hhead : Function.update sorted (off l - 1) m (off l - 1) = m :=
            Function.update_same _ _ _
          rw [hhead, hid]
          have htail : segMap (Function.update sorted (off l - 1) m) (off l)
              (nPer l - labelCount labels l (m + 1)) =
              segMap sorted (off l) (nPer l - labelCount labels l (m + 1)) := by
            apply segMap_congr
            intro q hq _
            apply Function.update_noteq
            omega
          rw [htail, hseg l hlK]
          simp [filterLab, ← hldef]
        · rw [Function.update_noteq hjl]
          have hcj : labelCount labels j (m + 1) = labelCount labels j m := by
            rw [labelCount_succ]
            simp [← hldef, Ne.symm hjl]
          have hbnd : ∀ q, off j ≤ q → q < off j + (nPer j - labelCount labels j m) →
              Function.update sorted (off l - 1) m q = sorted q := by
            intro q hq1 hq2
            apply Function.update_noteq
            -- q lies in cluster j's bucket, the write position in cluster
            -- l's bucket; the buckets are disjoint intervals
            have h1 : bucketStart nPer j ≤ q := by
              have h := hoff j hj; omega
            have h2 : q < bucketStart nPer j + nPer j := by
              have h := hoff j hj; omega
            have h3 : bucketStart nPer l ≤ off l - 1 := by omega
            have h4 : off l - 1 < bucketStart nPer l + nPer l := by omega
            rcases Nat.lt_or_ge j l with hlt | hgt
            · have h5 : bucketStart nPer (j + 1) ≤ bucketStart nPer l :=
                bucketStart_mono nPer hlt
              rw [bucketStart_succ] at h5
              omega
            · have hlt2 : l < j := by omega
              have h5 : bucketStart nPer (l + 1) ≤ bucketStart nPer j :=
                bucketStart_mono nPer hlt2
              rw [bucketStart_succ] at h5
              omega
          have hseg' := hseg j hj
          rw [hcj] at hseg'
          rw [segMap_congr _ _ hbnd, hseg', hrange]
          have hne : labels m ≠ j := by rw [← hldef]; exact Ne.symm hjl
          simp [filterLab, hne]

theorem clusterSlice_eq_filter (labels nPer : ℕ → ℕ) (K N : ℕ)
    (hval : ∀ p, p < N → labels p < K)
    (hcnt : ∀ j, j < K → nPer j = labelCount labels j N) :
    ∀ j, j < K → clusterSlice labels nPer N j = filterLab labels j (List.range N) := by
  have hspec := countingSortAux_spec labels nPer K N hval hcnt N (le_refl N)
    (fun i => bucketEndsAux nPer i) (fun _ => 0)
    (by
      intro j hj
      show bucketEndsAux nPer j = bucketStart nPer j + labelCount labels j N
      rw [bucketEndsAux_eq, bucketStart_succ, hcnt j hj])
    (by
      intro j hj
      have hz : nPer j - labelCount labels j N = 0 := by rw [hcnt j hj]; omega
      rw [hz]
      simp [segMap, filterLab])
  intro j hj
  unfold clusterSlice slicSort
  rw [show ((countingSortAux labels N (fun i => bucketEndsAux nPer i, fun _ => 0)).1 j) =
      bucketStart nPer j from hspec.1 j hj]
  exact hspec.2 j hj

theorem count_filterLab_eq (labels : ℕ → ℕ) {j a : ℕ} (L : List ℕ) (h : labels a = j) :
    (filterLab labels j L).count a = L.count a := by
  unfold filterLab
  exact List.count_filter (by simp [h])

theorem count_filterLab_ne (labels : ℕ → ℕ) {j a : ℕ} (L : List ℕ) (h : labels a ≠ j) :
    (filterLab labels j L).count a = 0 := by
  refine List.count_eq_zero.mpr fun hmem => ?_
  have := (List.mem_filter.mp hmem).2
  simp at this
  exact h this

theorem count_flatMap_filterLab (labels : ℕ → ℕ) (L : List ℕ) (a : ℕ) :
    ∀ K, ((List.range K).flatMap fun j => filterLab labels j L).count a =
      if labels a < K then L.count a else 0 := by
  intro K
  induction K with
  | zero => simp
  | succ K ih =>
      rw [List.range_succ, List.flatMap_append, List.count_append, ih]
      by_cases h : labels a = K
      · have hlt : labels a < K + 1 := by omega
        have hnlt : ¬ labels a < K := by omega
        simp [hnlt, hlt, count_filterLab_eq labels L h]
      · by_cases h2 : labels a < K
        · have hlt : labels a < K + 1 := by omega
          simp [h2, hlt, count_filterLab_ne labels L h]
        · have hnlt : ¬ labels a < K + 1 := by omega
          simp [h2, hnlt, count_filterLab_ne labels L h]

/-! ## C10: singleton superpixels have zero colour standard deviation -/

/-! ### Structure of a constructed `Superpixel` -/

theorem mkSuperpixel_allPx (l : ℕ) (pxs : List ℕ) (labels : ℕ → ℕ) (img : ImageData) :
    (mkSuperpixel l pxs labels img).allPx =
      pxs.filter (fun p => isBoundaryPixel img labels p) ++
        pxs.filter (fun p => !isBoundaryPixel img labels p) := rfl

theorem mkSuperpixel_boundaryPixels (l : ℕ) (pxs : List ℕ) (labels : ℕ → ℕ)
    (img : ImageData) :
    (mkSuperpixel l pxs labels img).boundaryPixels =
      pxs.filter (fun p => isBoundaryPixel img labels p) := by
  unfold Superpixel.boundaryPixels
  rw [mkSuperpixel_allPx]
  show List.take (pxs.filter (fun p => isBoundaryPixel img labels p)).length
      (pxs.filter (fun p => isBoundaryPixel img labels p) ++
        pxs.filter (fun p => !isBoundaryPixel img labels p)) = _
  exact List.take_left _ _

theorem mkSuperpixel_interiorPixels (l : ℕ) (pxs : List ℕ) (labels : ℕ → ℕ)
    (img : ImageData) :
    (mkSuperpixel l pxs labels img).interiorPixels =
      pxs.filter (fun p => !isBoundaryPixel img labels p) := by
  unfold Superpixel.interiorPixels
  rw [mkSuperpixel_allPx]
  show List.drop (pxs.filter (fun p => isBoundaryPixel img labels p)).length
      (pxs.filter (fun p => isBoundaryPixel img labels p) ++
        pxs.filter (fun p => !isBoundaryPixel img labels p)) = _
  exact List.drop_left _ _

theorem mem_mkSuperpixel_allPx (l : ℕ) (pxs : List ℕ) (labels : ℕ → ℕ)
    (img : ImageData) (p : ℕ) :
    p ∈ (mkSuperpixel l pxs labels img).allPx ↔ p ∈ pxs := by
  rw [mkSuperpixel_allPx]
  simp only [List.mem_append, List.mem_filter]
  by_cases h : isBoundaryPixel img labels p <;> simp [h]

/-- The boundary test as a proposition: some 4-neighbour position lies
off-image (fewer than four in-bounds neighbours) or some in-bounds
4-neighbour carries a different label. -/
theorem isBoundaryPixel_iff (img : ImageData) (labels : ℕ → ℕ) (p : ℕ) :
    isBoundaryPixel img labels p = true ↔
      ((img.fourNeighbours p).length < 4 ∨
        ∃ q ∈ img.fourNeighbours p, labels q ≠ labels p) := by
  simp [isBoundaryPixel]

/-- C10.  A `Superpixel` built from a pixel list with exactly one pixel
has aggregate colour standard deviation zero and per-channel colour
standard deviations zero: the variance computation divides by
`nPixels - 1` only under the guard `nPixels > 1`, so for a singleton the
guard fails and the default-initialized zeros are returned. -/
theorem singleton_superpixel_stddev_zero (l p : ℕ) (labels : ℕ → ℕ) (img : ImageData) :
    (mkSuperpixel l [p] labels img).stdDevColor = 0 ∧
    (mkSuperpixel l [p] labels img).stdDevColorChannels = (0, 0, 0) := by
  constructor <;> simp [mkSuperpixel]

/-! ## C3: the counting sort reproduces the naive pixel-by-pixel scan -/

/-- C3.  For a label assignment whose recorded per-cluster sizes
(`nPixelsPerCluster`) match the actual label counts, the counting sort
over labels (prefix-sum offset table, then downward scan): every
cluster's bucket, read off as `SLIC::createSuperpixels` reads it, equals
the naive pixel-by-pixel scan for that label — the same pixels, each
exactly once, in ascending pixel order (stability) — and the buckets
concatenated in label order are a permutation of all pixel indices. -/
theorem counting_sort_matches_naive_scan (labels nPer : ℕ → ℕ) (K N : ℕ)
    (hval : ∀ p, p < N → labels p < K)
    (hcnt : ∀ j, j < K → nPer j = labelCount labels j N) :
    (∀ j, j < K → clusterSlice labels nPer N j = filterLab labels j (List.range N)) ∧
    ((List.range K).flatMap (clusterSlice labels nPer N)).Perm (List.range N) ∧
    (∀ j, j < K → (clusterSlice labels nPer N j).Sorted (· < ·)) := by
  have hslice := clusterSlice_eq_filter labels nPer K N hval hcnt
  refine ⟨hslice, ?_, ?_⟩
  · have hmap : (List.range K).flatMap (clusterSlice labels nPer N) =
        (List.range K).flatMap fun j => filterLab labels j (List.range N) := by
      apply List.flatMap_congr
      intro j hj
      exact hslice j (List.mem_range.mp hj)
    rw [hmap, List.perm_iff_count]
    intro a
    rw [count_flatMap_filterLab]
    by_cases ha : a < N
    · simp [hval a ha]
    · have h0 : (List.range N).count a = 0 :=
        List.count_eq_zero.mpr (by simp [ha])
      by_cases hK : labels a < K <;> simp [hK, h0]
  · intro j hj
    rw [hslice j hj]
    exact List.Pairwise.filter _ (List.pairwise_lt_range N)

/-- Witness for C3 on a concrete instance: a 4-pixel image with labels
alternating between two clusters of recorded size 2. -/
theorem counting_sort_matches_naive_scan_witness :
    (∀ j, j < 2 → clusterSlice (fun p => p % 2) (fun _ => 2) 4 j =
      filterLab (fun p => p % 2) j (List.range 4)) ∧
    ((List.range 2).flatMap (clusterSlice (fun p => p % 2) (fun _ => 2) 4)).Perm
      (List.range 4) ∧
    (∀ j, j < 2 → (clusterSlice (fun p => p % 2) (fun _ => 2) 4 j).Sorted (· < ·)) :=
  counting_sort_matches_naive_scan (fun p => p % 2) (fun _ => 2) 2 4
    (by decide) (by decide)

/-! ## C1: a completed run's segmentation partitions the image -/

/-- C1.  For the superpixels built by a completed SLIC run — the labels
cover every pixel with a valid cluster and the recorded cluster sizes
agree with the labelling, which is what the pixel-sort and
superpixel-construction stages receive — every pixel of the image
belongs to exactly one superpixel's pixel list; within each superpixel
the boundary and interior lists are disjoint and together are exactly
the pixel list; and a pixel is in the boundary list precisely when one
of its 4-neighbour positions lies off-image or carries a different
label. -/
theorem segmentation_partitions_image (img : ImageData) (labels nPer : ℕ → ℕ) (K : ℕ)
    (hval : ∀ p, p < img.pixelCount → labels p < K)
    (hcnt : ∀ j, j < K → nPer j = labelCount labels j img.pixelCount) :
    (∀ p, p < img.pixelCount →
      ∃! j, j < K ∧ p ∈ (createSuperpixelObjects img labels nPer j).allPx) ∧
    (∀ j, j < K → ∀ p,
      (p ∈ (createSuperpixelObjects img labels nPer j).allPx ↔
        (p ∈ (createSuperpixelObjects img labels nPer j).boundaryPixels ∨
         p ∈ (createSuperpixelObjects img labels nPer j).interiorPixels)) ∧
      ¬(p ∈ (createSuperpixelObjects img labels nPer j).boundaryPixels ∧
        p ∈ (createSuperpixelObjects img labels nPer j).interiorPixels)) ∧
    (∀ j, j < K → ∀ p, p ∈ (createSuperpixelObjects img labels nPer j).allPx →
      (p ∈ (createSuperpixelObjects img labels nPer j).boundaryPixels ↔
        ((img.fourNeighbours p).length < 4 ∨
          ∃ q ∈ img.fourNeighbours p, labels q ≠ labels p))) := by
  have hslice := clusterSlice_eq_filter labels nPer K img.pixelCount hval hcnt
  have hmem : ∀ j, j < K → ∀ p,
      (p ∈ (createSuperpixelObjects img labels nPer j).allPx ↔
        (p < img.pixelCount ∧ labels p = j)) := by
    intro j hj p
    rw [createSuperpixelObjects, mem_mkSuperpixel_allPx, hslice j hj]
    simp [filterLab, List.mem_filter]
  refine ⟨?_, ?_, ?_⟩
  · intro p hp
    refine ⟨labels p, ⟨hval p hp, ?_⟩, ?_⟩
    · exact (hmem (labels p) (hval p hp) p).mpr ⟨hp, rfl⟩
    · intro j hj
      have := (hmem j hj.1 p).mp hj.2
      omega
  · intro j hj p
    constructor
    · rw [createSuperpixelObjects, mem_mkSuperpixel_allPx,
        mkSuperpixel_boundaryPixels, mkSuperpixel_interiorPixels]
      simp only [List.mem_filter]
      by_cases h : isBoundaryPixel img labels p <;> simp [h]
    · rw [createSuperpixelObjects, mkSuperpixel_boundaryPixels,
        mkSuperpixel_interiorPixels]
      rintro ⟨h1, h2⟩
      have hb1 := (List.mem_filter.mp h1).2
      have hb2 := (List.mem_filter.mp h2).2
      simp at hb1 hb2
      rw [hb1] at hb2
      exact Bool.false_ne_true hb2.symm
  · intro j hj p hp
    rw [createSuperpixelObjects, mem_mkSuperpixel_allPx] at hp
    rw [createSuperpixelObjects, mkSuperpixel_boundaryPixels]
    rw [← isBoundaryPixel_iff]
    simp [List.mem_filter, hp]

/-- Witness for C1 on a concrete 2×2 image whose four pixels alternate
between two clusters. -/
theorem segmentation_partitions_image_witness :
    (0 : ℕ) < testImage2x2.pixelCount ∧
    ∃! j, j < 2 ∧ 0 ∈ (createSuperpixelObjects testImage2x2
      (fun p => p % 2) (fun _ => 2) j).allPx :=
  ⟨by decide,
    (segmentation_partitions_image testImage2x2 (fun p => p % 2) (fun _ => 2) 2
      (by decide) (by decide)).1 0 (by decide)⟩

theorem prefixWeight_succ (hist : ℕ → ℕ) (t : ℕ) :
    prefixWeight hist (t + 1) = prefixWeight hist t + hist t := by
  unfold prefixWeight
  rw [List.range_succ, List.map_append, List.sum_append]
  simp

theorem prefixBinSum_succ (hist : ℕ → ℕ) (t : ℕ) :
    prefixBinSum hist (t + 1) = prefixBinSum hist t + t * hist t := by
  unfold prefixBinSum
  rw [List.range_succ, List.map_append, List.sum_append]
  simp

theorem prefixWeight_mono (hist : ℕ → ℕ) {t u : ℕ} (h : t ≤ u) :
    prefixWeight hist t ≤ prefixWeight hist u := by
  unfold prefixWeight
  exact List.Sublist.sum_le_sum
    (List.Sublist.map hist (List.range_sublist.mpr h)) (fun _ _ => Nat.zero_le _)

theorem otsuLoop_spec (hist : ℕ → ℕ) (nbins n : ℕ)
    (hsum : n = prefixWeight hist nbins) :
    ∀ fuel bin st, 1 ≤ bin → bin + fuel = nbins →
      st.weightDark = prefixWeight hist (bin - 1) →
      st.sumDark = prefixBinSum hist (bin - 1) →
      st.maxBCV = betweenClassVariance hist nbins n st.threshold →
      (∀ t, 1 ≤ t → t < bin → prefixWeight hist t ≠ 0 → prefixWeight hist t ≠ n →
        betweenClassVariance hist nbins n t ≤ st.maxBCV) →
      st.safe = true →
      ((otsuLoop hist n (prefixBinSum hist nbins) fuel bin st).maxBCV =
        betweenClassVariance hist nbins n
          (otsuLoop hist n (prefixBinSum hist nbins) fuel bin st).threshold) ∧
      (∀ t, 1 ≤ t → t < nbins → prefixWeight hist t ≠ 0 → prefixWeight hist t ≠ n →
        betweenClassVariance hist nbins n t ≤
          (otsuLoop hist n (prefixBinSum hist nbins) fuel bin st).maxBCV) ∧
      (otsuLoop hist n (prefixBinSum hist nbins) fuel bin st).safe = true := by
  intro fuel
  induction fuel with
  | zero =>
      intro bin st hbin hfuel hw hs hmax hprev hsafe
      have hbn : bin = nbins := by omega
      subst hbn
      exact ⟨hmax, fun t h1 h2 h3 h4 => hprev t h1 h2 h3 h4, hsafe⟩
  | succ fuel ih =>
      intro bin st hbin hfuel hw hs hmax hprev hsafe
      have hb1 : bin - 1 + 1 = bin := by omega
      have hpw : prefixWeight hist bin = st.weightDark + hist (bin - 1) := by
        conv_lhs => rw [← hb1]
        rw [prefixWeight_succ, hw]
      have hps : prefixBinSum hist bin = st.sumDark + (bin - 1) * hist (bin - 1) := by
        conv_lhs => rw [← hb1]
        rw [prefixBinSum_succ, hs]
      simp only [otsuLoop]
      by_cases hwd : st.weightDark + hist (bin - 1) = 0
      · rw [if_pos hwd]
        apply ih (bin + 1)
        · omega
        · omega
        · show st.weightDark + hist (bin - 1) = prefixWeight hist (bin + 1 - 1)
          simp only [Nat.add_sub_cancel]
          omega
        · show st.sumDark = prefixBinSum hist (bin + 1 - 1)
          simp only [Nat.add_sub_cancel]
          have hh : hist (bin - 1) = 0 := by omega
          rw [hps, hh]
          omega
        · exact hmax
        · intro t h1 h2 h3 h4
          by_cases ht : t < bin
          · exact hprev t h1 ht h3 h4
          · have htb : t = bin := by omega
            subst htb
            exact absurd (by omega : prefixWeight hist t = 0) h3
        · exact hsafe
      · rw [if_neg hwd]
        by_cases hwl : (n : ℤ) - ((st.weightDark + hist (bin - 1) : ℕ) : ℤ) = 0
        · rw [if_pos hwl]
          refine ⟨hmax, ?_, hsafe⟩
          intro t h1 h2 h3 h4
          by_cases ht : t < bin
          · exact hprev t h1 ht h3 h4
          · exfalso
            have hwn : st.weightDark + hist (bin - 1) = n := by omega
            have hle : prefixWeight hist bin ≤ prefixWeight hist t :=
              prefixWeight_mono hist (by omega)
            have hle2 : prefixWeight hist t ≤ prefixWeight hist nbins :=
              prefixWeight_mono hist (by omega)
            omega
        · rw [if_neg hwl]
          have hw1 : st.weightDark + hist (bin - 1) ≠ 0 := hwd
          split
          next hlt =>
            apply ih (bin + 1)
            · omega
            · omega
            · show st.weightDark + hist (bin - 1) = prefixWeight hist (bin + 1 - 1)
              simp only [Nat.add_sub_cancel]
              omega
            · show st.sumDark + (bin - 1) * hist (bin - 1) = prefixBinSum hist (bin + 1 - 1)
              simp only [Nat.add_sub_cancel]
              omega
            · show _ = betweenClassVariance hist nbins n bin
              simp only [betweenClassVariance]
              rw [hpw, hps]
              push_cast
              ring
            · intro t h1 h2 h3 h4
              show betweenClassVariance hist nbins n t ≤ _
              by_cases ht : t < bin
              · exact le_trans (hprev t h1 ht h3 h4) (le_of_lt hlt)
              · have htb : t = bin := by omega
                subst htb
                apply le_of_eq
                simp only [betweenClassVariance]
                rw [hpw, hps]
                push_cast
                ring
            · show (st.safe && _ && _) = true
              simp only [hsafe, Bool.true_and, Bool.and_eq_true, decide_eq_true_eq]
              constructor
              · intro h
                apply hwd
                exact_mod_cast h
              · intro h
                apply hwl
                exact_mod_cast h
          next hlt =>
            apply ih (bin + 1)
            · omega
            · omega
            · show st.weightDark + hist (bin - 1) = prefixWeight hist (bin + 1 - 1)
              simp only [Nat.add_sub_cancel]
              omega
            · show st.sumDark + (bin - 1) * hist (bin - 1) = prefixBinSum hist (bin + 1 - 1)
              simp only [Nat.add_sub_cancel]
              omega
            · exact hmax
            · intro t h1 h2 h3 h4
              show betweenClassVariance hist nbins n t ≤ st.maxBCV
              by_cases ht : t < bin
              · exact hprev t h1 ht h3 h4
              · have htb : t = bin := by omega
                subst htb
                apply le_of_not_lt
                intro hcon
                apply hlt
                refine lt_of_lt_of_le hcon (le_of_eq ?_)
                simp only [betweenClassVariance]
                rw [hpw, hps]
                push_cast
                ring
            · show (st.safe && _ && _) = true
              simp only [hsafe, Bool.true_and, Bool.and_eq_true, decide_eq_true_eq]
              constructor
              · intro h
                apply hwd
                exact_mod_cast h
              · intro h
                apply hwl
                exact_mod_cast h

/-- C2.  For every histogram (with its total mass `n`, as recorded in
`nSuperpixels`) with at least one bin, the split point chosen by
`chooseOtsuThreshold` maximizes the between-class variance — the product
of the class weights times the squared difference of class means — over
all candidate split points at which both classes are non-empty; and on
any such histogram, including one with all mass in a single bin, every
division performed has a nonzero denominator and the returned threshold
is the deterministic value of a pure function of the inputs. -/
theorem otsu_threshold_maximizes_bcv (hist : ℕ → ℕ) (nbins n : ℕ)
    (hbins : 1 ≤ nbins) (hsum : n = prefixWeight hist nbins) :
    (∀ t, 1 ≤ t → t < nbins →
      prefixWeight hist t ≠ 0 → prefixWeight hist t ≠ n →
      betweenClassVariance hist nbins n t ≤
        betweenClassVariance hist nbins n (chooseOtsuThreshold hist nbins n).threshold) ∧
    (chooseOtsuThreshold hist nbins n).safe = true := by
  have h := otsuLoop_spec hist nbins n hsum (nbins - 1) 1
    ⟨0, 0, 0, 0, true⟩ (le_refl 1) (by omega)
    (by simp [prefixWeight])
    (by simp [prefixBinSum])
    (by simp [betweenClassVariance, prefixWeight])
    (by
      intro t h1 h2 _ _
      exact ((by omega : False)).elim)
    rfl
  exact ⟨fun t h1 h2 h3 h4 => le_of_le_of_eq (h.2.1 t h1 h2 h3 h4) h.1, h.2.2⟩

/-- Witness for C2 on a histogram with all mass in a single bin
(4 superpixels, 3 bins, everything in bin 1): both hypotheses hold and
the theorem applies; no split point has two non-empty classes, the scan
performs no division, and the returned threshold is bin 0. -/
theorem otsu_threshold_maximizes_bcv_witness :
    (∀ t, 1 ≤ t → t < 3 →
      prefixWeight (fun b => if b = 1 then 4 else 0) t ≠ 0 →
      prefixWeight (fun b => if b = 1 then 4 else 0) t ≠ 4 →
      betweenClassVariance (fun b => if b = 1 then 4 else 0) 3 4 t ≤
        betweenClassVariance (fun b => if b = 1 then 4 else 0) 3 4
          (chooseOtsuThreshold (fun b => if b = 1 then 4 else 0) 3 4).threshold) ∧
    (chooseOtsuThreshold (fun b => if b = 1 then 4 else 0) 3 4).safe = true :=
  otsu_threshold_maximizes_bcv (fun b => if b = 1 then 4 else 0) 3 4
    (by decide) (by decide)

theorem setChoice_apply (c : Bool) (l : List ℕ) (selP : ℕ → Bool) (q : ℕ) :
    setChoice c l selP q = if q ∈ l then c else selP q := by
  induction l generalizing selP with
  | nil => simp [setChoice]
  | cons p rest ih =>
      rw [setChoice, ih]
      by_cases hq : q ∈ rest
      · simp [hq]
      · by_cases hqp : q = p
        · subst hqp
          simp [hq, Function.update_same]
        · simp [hq, hqp, Function.update_noteq hqp]

theorem filterSuperpixelsLoop_fst (scores : ℕ → ℚ) (thr : ℚ) (selectBelow : Bool)
    (spPixels : ℕ → List ℕ) (n : ℕ) (j : ℕ) :
    (filterSuperpixelsLoop scores thr selectBelow spPixels n
      (fun _ => false, fun _ => false)).1 j =
      if j < n then filterChoice scores thr selectBelow j else false := by
  induction n with
  | zero => simp [filterSuperpixelsLoop]
  | succ n ih =>
      rw [filterSuperpixelsLoop]
      by_cases hj : j = n
      · subst hj
        simp [Function.update_same]
      · have hiff : (j < n + 1) ↔ (j < n) := by omega
        show (Function.update (filterSuperpixelsLoop scores thr selectBelow spPixels n
            (fun _ => false, fun _ => false)).1 n
            (filterChoice scores thr selectBelow n)) j = _
        rw [Function.update_noteq hj, ih]
        simp only [hiff]

theorem filterSuperpixelsLoop_snd (scores : ℕ → ℚ) (thr : ℚ) (selectBelow : Bool)
    (spPixels : ℕ → List ℕ) (lab : ℕ → ℕ) (p : ℕ)
    (hmem : p ∈ spPixels (lab p))
    (huniq : ∀ j, p ∈ spPixels j → j = lab p) :
    ∀ n, (filterSuperpixelsLoop scores thr selectBelow spPixels n
      (fun _ => false, fun _ => false)).2 p =
      if lab p < n then filterChoice scores thr selectBelow (lab p) else false := by
  intro n
  induction n with
  | zero => simp [filterSuperpixelsLoop]
  | succ n ih =>
      rw [filterSuperpixelsLoop]
      show setChoice _ (spPixels n) _ p = _
      rw [setChoice_apply]
      by_cases hp : p ∈ spPixels n
      · have hn : n = lab p := huniq n hp
        subst hn
        simp [hp]
      · have hne : lab p ≠ n := fun h => hp (h ▸ hmem)
        have : (lab p < n + 1) ↔ (lab p < n) := by omega
        simp only [hp, if_false, ih, this]

/-- C6.  After the classification stage: with the stddev or external
basis a superpixel is selected exactly when its score is strictly below
the threshold; with the size basis exactly when its score is at or above
the threshold; and, provided the superpixel pixel lists agree with the
label array (each pixel lies in the list of its own label and in no
other), every pixel's selection flag equals the flag of the superpixel
`label[k]` containing it. -/
theorem filter_superpixels_classification (basis : ScoreBasis) (scores : ℕ → ℚ)
    (thr : ℚ) (spPixels : ℕ → List ℕ) (lab : ℕ → ℕ) (K N : ℕ)
    (hcover : ∀ p, p < N → lab p < K ∧ p ∈ spPixels (lab p))
    (huniq : ∀ p, p < N → ∀ j, p ∈ spPixels j → j = lab p) :
    ((basis = ScoreBasis.STDDEV_LSTAR ∨ basis = ScoreBasis.EXTERNAL) →
      ∀ j, j < K →
        ((filterSuperpixels scores thr (selectBelowThresholdFor basis) spPixels K).1 j
          = true ↔ scores j < thr)) ∧
    (basis = ScoreBasis.SIZE →
      ∀ j, j < K →
        ((filterSuperpixels scores thr (selectBelowThresholdFor basis) spPixels K).1 j
          = true ↔ thr ≤ scores j)) ∧
    (∀ p, p < N →
      (filterSuperpixels scores thr (selectBelowThresholdFor basis) spPixels K).2 p =
        (filterSuperpixels scores thr (selectBelowThresholdFor basis) spPixels K).1
          (lab p)) := by
  refine ⟨?_, ?_, ?_⟩
  · rintro (hb | hb) j hj <;> subst hb <;>
      rw [filterSuperpixels, filterSuperpixelsLoop_fst] <;>
      simp [hj, filterChoice, selectBelowThresholdFor]
  · rintro hb j hj
    subst hb
    rw [filterSuperpixels, filterSuperpixelsLoop_fst]
    simp [hj, filterChoice, selectBelowThresholdFor]
  · intro p hp
    have h2 := (hcover p hp).2
    rw [filterSuperpixels, filterSuperpixelsLoop_fst,
      filterSuperpixelsLoop_snd scores thr _ spPixels lab p h2 (huniq p hp)]

/-- Witness for C6: two singleton superpixels with scores 0 and 1 and
threshold 1, size basis. -/
theorem filter_superpixels_classification_witness :
    ((ScoreBasis.SIZE = ScoreBasis.STDDEV_LSTAR ∨
        ScoreBasis.SIZE = ScoreBasis.EXTERNAL) →
      ∀ j, j < 2 →
        ((filterSuperpixels (fun k => (k : ℚ)) 1
            (selectBelowThresholdFor ScoreBasis.SIZE) (fun j => [j]) 2).1 j = true ↔
          (fun k => (k : ℚ)) j < 1)) ∧
    (ScoreBasis.SIZE = ScoreBasis.SIZE →
      ∀ j, j < 2 →
        ((filterSuperpixels (fun k => (k : ℚ)) 1
            (selectBelowThresholdFor ScoreBasis.SIZE) (fun j => [j]) 2).1 j = true ↔
          1 ≤ (fun k => (k : ℚ)) j)) ∧
    (∀ p, p < 2 →
      (filterSuperpixels (fun k => (k : ℚ)) 1
          (selectBelowThresholdFor ScoreBasis.SIZE) (fun j => [j]) 2).2 p =
        (filterSuperpixels (fun k => (k : ℚ)) 1
          (selectBelowThresholdFor ScoreBasis.SIZE) (fun j => [j]) 2).1 ((fun p => p) p)) :=
  filter_superpixels_classification ScoreBasis.SIZE (fun k => (k : ℚ)) 1
    (fun j => [j]) (fun p => p) 2 2 (by decide)
    (by
      intro p _ j hj
      have h := List.mem_singleton.mp hj
      show j = p
      omega)

/-- C9 counterexample.  After a shallow transfer the source is
non-owning, but it is not an empty shell: its label-array, superpixel
and image members still hold the transferred references (the copy
constructor sets only `shareAll` on the source and nulls nothing).
Shown at a concrete instance holding a label array. -/
theorem shallow_transfer_source_retains_reference :
    ((shallowTransfer
        (Superpixellation.mk none none (some fun _ => 0) 1 false false)).2).superpixelLabels
      = some (fun _ => 0) ∧
    ((shallowTransfer
        (Superpixellation.mk none none (some fun _ => 0) 1 false false)).2).superpixelLabels
      ≠ none := by
  constructor
  · rfl
  · simp [shallowTransfer]

/-- C9 (amended).  The shallow-transfer constructor copies every field —
superpixel array, label array, image and ownership flags — into the new
instance, and mutates the source only by setting its `shareAll` flag, so
the source's destructor frees nothing; the source keeps its now
non-owned pointers. -/
theorem shallow_transfer_semantics (s : Superpixellation) :
    (shallowTransfer s).1 = s ∧
    (shallowTransfer s).2 = { s with shareAll := true } ∧
    destructorFrees (shallowTransfer s).2 = (false, false, false) := by
  refine ⟨rfl, rfl, ?_⟩
  simp [shallowTransfer, destructorFrees]

/-- C5 counterexample.  `increment` also returns failure when called on
an instance that has already *finished* (without any failure): the
state is untouched, but `output` still succeeds afterwards — so "once
`increment` has returned failure, `output` fails" is false as stated.
Shown on a finished, non-failed instance holding an output image. -/
theorem increment_failure_gates_output_counterexample :
    (slicIncrement { slicConstructed with
        finished := true
        outputImage := some (OutputImage.mk 1 1 fun _ _ => (0, 0, 0)) }).2.2 = false ∧
    (slicIncrement { slicConstructed with
        finished := true
        outputImage := some (OutputImage.mk 1 1 fun _ _ => (0, 0, 0)) }).1 =
      { slicConstructed with
        finished := true
        outputImage := some (OutputImage.mk 1 1 fun _ _ => (0, 0, 0)) } ∧
    (algorithmOutput { slicConstructed with
        finished := true
        outputImage := some (OutputImage.mk 1 1 fun _ _ => (0, 0, 0)) }).2.2.2 = true := by
  refine ⟨?_, ?_, ?_⟩ <;> simp [slicIncrement, algorithmOutput, slicConstructed]

/-- C5 (amended).  Failure — the `failed` flag — is sticky and gates
output: once the flag is set, every subsequent `increment` call returns
failure without modifying any state, and `output` fails.  (`increment`
also returns failure, with the state untouched, when processing has
already finished — but in that case `output` remains available.)
`output` succeeds exactly when processing has finished, has not failed,
and output was not disabled; otherwise it returns a null image and null
vector data. -/
theorem failure_sticky_and_output_spec (s : SLICState) :
    (s.failed = true →
      slicIncrement s = (s, false, false) ∧
      (∀ n, slicRun s n = s) ∧
      (algorithmOutput s).2.2.2 = false) ∧
    (s.failed = false → s.finished = true → slicIncrement s = (s, true, false)) ∧
    ((algorithmOutput s).2.2.2 = true ↔
      (s.finished = true ∧ s.failed = false ∧ s.outputIsEnabled = true)) ∧
    ((algorithmOutput s).2.2.2 = false →
      (algorithmOutput s).2.1 = none ∧ (algorithmOutput s).2.2.1 = none) := by
  refine ⟨?_, ?_, ?_, ?_⟩
  · intro hf
    have hinc : slicIncrement s = (s, false, false) := by
      simp [slicIncrement, hf]
    refine ⟨hinc, ?_, ?_⟩
    · intro n
      induction n with
      | zero => rfl
      | succ n ih => rw [slicRun, ih, hinc]
    · simp [algorithmOutput, hf]
  · intro hf hfin
    simp [slicIncrement, hf, hfin]
  · constructor
    · intro h
      by_cases hcond : (¬s.finished = true ∨ s.failed = true ∨ ¬s.outputIsEnabled = true)
      · rw [algorithmOutput, if_pos hcond] at h
        exact absurd h (by simp)
      · push_neg at hcond
        refine ⟨hcond.1, ?_, hcond.2.2⟩
        have := hcond.2.1
        simp at this
        exact this
    · rintro ⟨h1, h2, h3⟩
      simp [algorithmOutput, h1, h2, h3]
  · intro h
    by_cases hcond : (¬s.finished = true ∨ s.failed = true ∨ ¬s.outputIsEnabled = true)
    · rw [algorithmOutput, if_pos hcond]
      exact ⟨rfl, rfl⟩
    · rw [algorithmOutput, if_neg hcond] at h
      exact absurd h (by simp)

/-- Witness for C5's amended theorem at a concrete failed instance. -/
theorem failure_sticky_and_output_spec_witness :
    (({ slicConstructed with failed := true } : SLICState).failed = true →
      slicIncrement { slicConstructed with failed := true } =
        ({ slicConstructed with failed := true }, false, false) ∧
      (∀ n, slicRun { slicConstructed with failed := true } n =
        { slicConstructed with failed := true }) ∧
      (algorithmOutput { slicConstructed with failed := true }).2.2.2 = false) ∧
    (({ slicConstructed with failed := true } : SLICState).failed = false →
      ({ slicConstructed with failed := true } : SLICState).finished = true →
      slicIncrement { slicConstructed with failed := true } =
        ({ slicConstructed with failed := true }, true, false)) ∧
    ((algorithmOutput { slicConstructed with failed := true }).2.2.2 = true ↔
      (({ slicConstructed with failed := true } : SLICState).finished = true ∧
       ({ slicConstructed with failed := true } : SLICState).failed = false ∧
       ({ slicConstructed with failed := true } : SLICState).outputIsEnabled = true)) ∧
    ((algorithmOutput { slicConstructed with failed := true }).2.2.2 = false →
      (algorithmOutput { slicConstructed with failed := true }).2.1 = none ∧
      (algorithmOutput { slicConstructed with failed := true }).2.2.1 = none) :=
  failure_sticky_and_output_spec { slicConstructed with failed := true }

theorem slicRun_shift (s : SLICState) (n : ℕ) :
    slicRun s (n + 1) = slicRun (slicIncrement s).1 n := by
  induction n with
  | zero => rfl
  | succ n ih =>
      rw [slicRun, ih]
      rfl

theorem slicIncrement_start_state (t : SLICState)
    (hp : t.progress = Progress.START) (hk0 : t.k = 0)
    (hf : t.failed = false) (hfin : t.finished = false) :
    slicIncrement t =
      ({ t with progress := Progress.RGB2LAB,
                lStarOrigin := some t.input.lStar,
                aStarOrigin := some t.input.aStar,
                bStarOrigin := some t.input.bStar }, false, true) := by
  simp [slicIncrement, hf, hfin, updateKAndProgress, advanceProgress, getLoopLimit, hp,
    hk0, progressInc, slicStageBody, rgb2labStage, SLICState.mk.injEq]

/-- C8.  Calling `initialize` twice in succession with the same input is
idempotent — the second call reproduces the first call's state exactly —
and the state is reset fully enough that a complete run of `increment`
calls behaves identically to a freshly constructed instance run on the
same input (the only surviving fields, the cached colour-channel
pointers, are overwritten by the first increment).  The hypotheses pin
the prior instance to the fresh configuration (`kParam`, `m`, output
enabled), which no code path modifies, and to having no unconsumed
output objects. -/
theorem initialize_twice_idempotent (s : SLICState) (img : ImageData)
    (hk : s.kParam = 500) (hm : s.m = 10) (he : s.outputIsEnabled = true)
    (hoi : s.outputImage = none) (hos : s.outputSVG = none) :
    slicInitialize (slicInitialize s img) img = slicInitialize s img ∧
    (∀ n, 1 ≤ n →
      slicRun (slicInitialize (slicInitialize s img) img) n =
        slicRun (slicInitialize slicConstructed img) n) ∧
    (∀ n, 1 ≤ n →
      algorithmOutput (slicRun (slicInitialize (slicInitialize s img) img) n) =
        algorithmOutput (slicRun (slicInitialize slicConstructed img) n)) := by
  have hidem : slicInitialize (slicInitialize s img) img = slicInitialize s img := rfl
  have hstep : (slicIncrement (slicInitialize s img)).1 =
      (slicIncrement (slicInitialize slicConstructed img)).1 := by
    rw [slicIncrement_start_state (slicInitialize s img) rfl rfl rfl rfl,
        slicIncrement_start_state (slicInitialize slicConstructed img) rfl rfl rfl rfl]
    simp [slicInitialize, slicCleanup, slicConstructed, SLICState.mk.injEq,
      hk, hm, he, hoi, hos]
  have hrun : ∀ n, 1 ≤ n →
      slicRun (slicInitialize (slicInitialize s img) img) n =
        slicRun (slicInitialize slicConstructed img) n := by
    intro n hn
    obtain ⟨m, rfl⟩ : ∃ m, n = m + 1 := ⟨n - 1, by omega⟩
    rw [hidem, slicRun_shift, slicRun_shift, hstep]
  exact ⟨hidem, hrun, fun n hn => by rw [hrun n hn]⟩

/-- Witness for C8 at the fresh instance and a 1×1 image. -/
theorem initialize_twice_idempotent_witness :
    slicInitialize (slicInitialize slicConstructed testImage2x2) testImage2x2 =
      slicInitialize slicConstructed testImage2x2 ∧
    (∀ n, 1 ≤ n →
      slicRun (slicInitialize (slicInitialize slicConstructed testImage2x2) testImage2x2) n =
        slicRun (slicInitialize slicConstructed testImage2x2) n) ∧
    (∀ n, 1 ≤ n →
      algorithmOutput
          (slicRun (slicInitialize (slicInitialize slicConstructed testImage2x2) testImage2x2) n) =
        algorithmOutput (slicRun (slicInitialize slicConstructed testImage2x2) n)) :=
  initialize_twice_idempotent slicConstructed testImage2x2 rfl rfl rfl rfl rfl

/-- C4 counterexample: a state where the source's stopping test fires
(relative change of the square root of the residual is below the
threshold) although the claimed test on the residual itself does not:
residual 1.1 versus previous residual 1 gives a claimed relative change
of 0.1 > 0.05, yet sqrt 1.1 / sqrt 1 - 1 <= 0.05. -/
theorem kmeans_stop_uses_sqrt_counterexample :
    (advanceProgress { slicConstructed with
        progress := Progress.K_MEANS_ASSESS_ITERATION
        k := 500
        iterationCount := 2
        residualError := 1.1
        previousResidualError := 1 }).progress =
      Progress.FIND_CONNECTED_COMPONENTS ∧
    ¬claimedStopCondition 2 (1.1 : ℝ) 1 := by
  have h1 : (1 : ℝ) ≤ Real.sqrt 1.1 := by
    rw [show (1 : ℝ) = Real.sqrt 1 from (Real.sqrt_one).symm]
    exact Real.sqrt_le_sqrt (by norm_num)
  have h2 : Real.sqrt 1.1 ≤ 1.05 := by
    rw [Real.sqrt_le_iff]
    norm_num
  have hstop : kmeansStopCondition 2 (1.1 : ℝ) 1 := by
    refine Or.inr ⟨by norm_num, by norm_num, ?_⟩
    unfold kmeansErrorChange slicErrorThreshold
    rw [Real.sqrt_one, div_one, abs_of_nonneg (by linarith)]
    linarith
  constructor
  · rw [advanceProgress]
    rw [if_pos]
    · simp only [slicConstructed]
      rw [if_pos hstop]
    · left
      constructor
      · rfl
      · simp
  · unfold claimedStopCondition slicMaxKmeansIterations slicErrorThreshold
    push_neg
    refine ⟨by norm_num, fun _ _ => ?_⟩
    rw [show |(1.1 : ℝ) - 1| = 0.1 by rw [abs_of_nonneg] <;> norm_num]
    norm_num

/-- C4 (amended).  At the end of a K_MEANS_ASSESS_ITERATION pass the
machine leaves the iteration phase exactly when the final iteration
index (SLIC_MAX_KMEANS_ITERATIONS - 1 = 14) is reached, or - only after
more than one completed iteration and with a nonzero previous residual -
the relative change of the *square root* of the summed squared
center-position displacement is at most 0.05; otherwise another
iteration starts with the counter incremented.  Reaching the final
index forces the exit, so at most 15 iterations run, and the colour
components of the centers do not enter the accumulated residual. -/
theorem kmeans_loop_terminates_and_stop_spec (s : SLICState)
    (hp : s.progress = Progress.K_MEANS_ASSESS_ITERATION)
    (hk : s.k = getLoopLimit s) :
    ((advanceProgress s).progress = Progress.FIND_CONNECTED_COMPONENTS ↔
      (s.iterationCount = 14 ∨
        (1 < s.iterationCount ∧ 0 < s.previousResidualError ∧
          |Real.sqrt s.residualError - Real.sqrt s.previousResidualError| ≤
            0.05 * Real.sqrt s.previousResidualError))) ∧
    (¬kmeansStopCondition s.iterationCount s.residualError s.previousResidualError →
      (advanceProgress s).progress = Progress.K_MEANS_LABEL_PIXELS ∧
      (advanceProgress s).iterationCount = s.iterationCount + 1) ∧
    (s.iterationCount = 14 →
      (advanceProgress s).progress = Progress.FIND_CONNECTED_COMPONENTS) ∧
    (∀ cc pc : ℕ → ℝ × ℝ × ℝ,
      (residualErrorOneCluster false
        { s with
          currentCenters := fun j => ⟨(s.currentCenters j).position, cc j⟩
          previousCenters := fun j => ⟨(s.previousCenters j).position, pc j⟩ }).residualError =
      (residualErrorOneCluster false s).residualError) := by
  have hs_eq : s = { s with progress := Progress.K_MEANS_ASSESS_ITERATION } := by
    rw [← hp]
  have hcond : (({ s with progress := Progress.K_MEANS_ASSESS_ITERATION } : SLICState).k =
        getLoopLimit { s with progress := Progress.K_MEANS_ASSESS_ITERATION } ∧
        ({ s with progress := Progress.K_MEANS_ASSESS_ITERATION } : SLICState).progress ≠
          Progress.SORT_PIXELS_AS_SUPERPIXELS) ∨
      (({ s with progress := Progress.K_MEANS_ASSESS_ITERATION } : SLICState).progress =
          Progress.SORT_PIXELS_AS_SUPERPIXELS ∧
        ({ s with progress := Progress.K_MEANS_ASSESS_ITERATION } : SLICState).k <
          getLoopLimit { s with progress := Progress.K_MEANS_ASSESS_ITERATION }) := by
    left
    refine ⟨?_, by simp⟩
    rw [← hs_eq]
    exact hk
  have hadv : advanceProgress s =
      (if kmeansStopCondition s.iterationCount s.residualError s.previousResidualError then
        { s with k := 0, progress := Progress.FIND_CONNECTED_COMPONENTS }
      else
        { s with k := 0,
                 progress := Progress.K_MEANS_LABEL_PIXELS
                 iterationCount := s.iterationCount + 1
                 previousCenters := s.currentCenters
                 previousResidualError := s.residualError
                 residualError := 0 }) := by
    have hk2 : s.k = getLoopLimit { s with progress := Progress.K_MEANS_ASSESS_ITERATION } := by
      rw [← hs_eq]
      exact hk
    by_cases hst : kmeansStopCondition s.iterationCount s.residualError s.previousResidualError
    · rw [if_pos hst]
      conv_lhs => rw [hs_eq]
      simp only [advanceProgress]
      simp [hst, ← hk2]
    · rw [if_neg hst]
      conv_lhs => rw [hs_eq]
      simp only [advanceProgress]
      simp [hst, ← hk2]
  have hsqrt_iff :
      kmeansStopCondition s.iterationCount s.residualError s.previousResidualError ↔
      (s.iterationCount = 14 ∨
        (1 < s.iterationCount ∧ 0 < s.previousResidualError ∧
          |Real.sqrt s.residualError - Real.sqrt s.previousResidualError| ≤
            0.05 * Real.sqrt s.previousResidualError)) := by
    unfold kmeansStopCondition kmeansErrorChange slicErrorThreshold slicMaxKmeansIterations
    constructor
    · rintro (h | ⟨h1, h2, h3⟩)
      · left
        omega
      · refine Or.inr ⟨h1, h2, ?_⟩
        have hpos : 0 < Real.sqrt s.previousResidualError := Real.sqrt_pos.mpr h2
        rw [abs_div, abs_of_pos hpos, div_le_iff₀ hpos] at h3
        linarith [h3]
    · rintro (h | ⟨h1, h2, h3⟩)
      · left
        omega
      · refine Or.inr ⟨h1, h2, ?_⟩
        have hpos : 0 < Real.sqrt s.previousResidualError := Real.sqrt_pos.mpr h2
        rw [abs_div, abs_of_pos hpos, div_le_iff₀ hpos]
        linarith [h3]
  refine ⟨?_, ?_, ?_, ?_⟩
  · rw [hadv]
    by_cases hst : kmeansStopCondition s.iterationCount s.residualError s.previousResidualError
    · rw [if_pos hst]
      simpa using hsqrt_iff.mp hst
    · rw [if_neg hst]
      constructor
      · intro hcontra
        exact absurd hcontra (by simp)
      · intro hcontra
        exact absurd (hsqrt_iff.mpr hcontra) hst
  · intro hst
    rw [hadv, if_neg hst]
    exact ⟨rfl, rfl⟩
  · intro h14
    have hst : kmeansStopCondition s.iterationCount s.residualError s.previousResidualError := by
      left
      rw [h14]
      rfl
    rw [hadv, if_pos hst]
  · intro cc pc
    simp [residualErrorOneCluster, lengthSq2]

/-- Witness for the amended C4 theorem at a concrete assess-phase state. -/
theorem kmeans_loop_terminates_and_stop_spec_witness :
    (advanceProgress { slicConstructed with
        progress := Progress.K_MEANS_ASSESS_ITERATION,
        k := 500, iterationCount := 14 }).progress =
      Progress.FIND_CONNECTED_COMPONENTS :=
  (kmeans_loop_terminates_and_stop_spec
    { slicConstructed with
        progress := Progress.K_MEANS_ASSESS_ITERATION,
        k := 500, iterationCount := 14 } rfl rfl).2.2.1 rfl

/-- C7: with the EXTERNAL scoring basis, initialization from a
two-image vector fails when the two images' dimensions differ — both
images are freed and the only state change is the `failed` flag, so no
partial state is retained — and succeeds when the dimensions agree,
storing the first image as the input and the second as the selection
map, resetting the failure and finished flags and the scoring fields,
and leaving the output objects untouched. -/
theorem ldf_initialize_external_validation (s : LDFState) (img0 img1 : ImageData)
    (hb : s.basis = ScoreBasis.EXTERNAL) :
    ((img0.w ≠ img1.w ∨ img0.h ≠ img1.h) →
      ldfInitializeVec s [img0, img1] =
        ({ s with failed := true }, false, true, true)) ∧
    (s.failed = false → img0.w = img1.w → img0.h = img1.h →
      ldfInitializeVec s [img0, img1] =
        ({ s with
            input := some img0
            failed := false
            finished := false
            generator := slicInitialize s.generator img0
            superpixellation := none
            selectedSuperpixels := none
            selectedPixels := none
            isSuperpixelGenerationFinished := false
            canDeleteInput := false
            selectionMap := some img1
            lStarSelectionMap := none
            superpixelScores := none
            maxScore := -validatorTop
            minScore := validatorTop
            inverseBinWidth := 0
            histogram := none
            nHistogramBins := 0
            otsuThreshold := 0
            outputInRow := false
            progress := LDFProgress.START
            k := 0 }, true, false, false)) := by
  constructor
  · intro hmm
    simp [ldfInitializeVec, hb, hmm]
  · intro hf hw hh
    simp [ldfInitializeVec, superpixelFilterInitializeVec, ldfInitializeImage,
      ldfCleanup, superpixelFilterCleanup, algorithmCleanupFilter, hb, hf, hw, hh]

/-- Witness for the C7 theorem: a 2×2 input image against a 0×0
selection map fails validation cleanly. -/
theorem ldf_initialize_external_validation_witness :
    ldfInitializeVec (ldfConstructed ScoreBasis.EXTERNAL slicConstructed)
        [testImage2x2, noImage] =
      ({ ldfConstructed ScoreBasis.EXTERNAL slicConstructed with failed := true },
        false, true, true) :=
  (ldf_initialize_external_validation (ldfConstructed ScoreBasis.EXTERNAL slicConstructed)
    testImage2x2 noImage rfl).1 (Or.inl (by decide))

end MainTheorems

end Stippler
